import Mathlib

/-!
# Qt platform backend for Dear ImGui: event translation and deferred dispatch

A shallow embedding of `backends/imgui_impl_qt.cpp`.

Modelling conventions:

* `QObject*` values are handles carrying an address and the answer of
  `isWidgetType()`; a possibly-null member pointer is an `Option QObject`.
* `std::unordered_map<QObject*, std::deque<...>>` is a partial function from
  handles to lists; `at` fails with `out_of_range` on a missing key and
  `operator[]` inserts an empty deque when the key is missing.
* A queued `std::function<void()>` is a value of `Action`: one constructor per
  lambda of the source, holding exactly the values that lambda captures.
  Invoking it performs the calls on `io_` written in the lambda body.
* Calls on the UI library (`io_.Add...Event`, `ImGui::DebugLog`) and on toolkit
  objects (`update()`, `setCursor`, `installEventFilter`) are recorded, in
  order, in trace fields.
* `qreal` and `float` values are rationals. Positions and pixel deltas are
  carried as they are; a quotient of `QPointF::operator/` is rounded to
  `double` and the wheel steps computed from degrees are narrowed to `float`,
  both to nearest with ties to even.
* Enumerators of Qt (`Qt::Key`, `Qt::KeyboardModifier`, `Qt::MouseButton`) have
  their documented numeric values.
-/

namespace ImGuiQt

/-! ## Toolkit and UI-library vocabulary -/

namespace Qt

/-- Values of `Qt::KeyboardModifier`. -/
def ShiftModifier : Nat := 0x02000000
def ControlModifier : Nat := 0x04000000
def AltModifier : Nat := 0x08000000
def MetaModifier : Nat := 0x10000000
def KeypadModifier : Nat := 0x20000000

/-- Values of `Qt::MouseButton`. -/
def LeftButton : Nat := 0x00000001
def RightButton : Nat := 0x00000002
def MiddleButton : Nat := 0x00000004

/-- Values of `Qt::Key`. -/
def Key_Escape : Int := 0x01000000
def Key_Tab : Int := 0x01000001
def Key_Backspace : Int := 0x01000003
def Key_Return : Int := 0x01000004
def Key_Enter : Int := 0x01000005
def Key_Insert : Int := 0x01000006
def Key_Delete : Int := 0x01000007
def Key_Pause : Int := 0x01000008
def Key_Print : Int := 0x01000009
def Key_Home : Int := 0x01000010
def Key_End : Int := 0x01000011
def Key_Left : Int := 0x01000012
def Key_Up : Int := 0x01000013
def Key_Right : Int := 0x01000014
def Key_Down : Int := 0x01000015
def Key_PageUp : Int := 0x01000016
def Key_PageDown : Int := 0x01000017
def Key_Shift : Int := 0x01000020
def Key_Control : Int := 0x01000021
def Key_Alt : Int := 0x01000023
def Key_CapsLock : Int := 0x01000024
def Key_NumLock : Int := 0x01000025
def Key_ScrollLock : Int := 0x01000026
def Key_F1 : Int := 0x01000030
def Key_F2 : Int := 0x01000031
def Key_F3 : Int := 0x01000032
def Key_F4 : Int := 0x01000033
def Key_F5 : Int := 0x01000034
def Key_F6 : Int := 0x01000035
def Key_F7 : Int := 0x01000036
def Key_F8 : Int := 0x01000037
def Key_F9 : Int := 0x01000038
def Key_F10 : Int := 0x01000039
def Key_F11 : Int := 0x0100003a
def Key_F12 : Int := 0x0100003b
def Key_Super_L : Int := 0x01000053
def Key_Super_R : Int := 0x01000054
def Key_Menu : Int := 0x01000055
def Key_Space : Int := 0x20
def Key_Exclam : Int := 0x21
def Key_QuoteDbl : Int := 0x22
def Key_NumberSign : Int := 0x23
def Key_Dollar : Int := 0x24
def Key_Percent : Int := 0x25
def Key_Ampersand : Int := 0x26
def Key_Apostrophe : Int := 0x27
def Key_ParenLeft : Int := 0x28
def Key_ParenRight : Int := 0x29
def Key_Asterisk : Int := 0x2a
def Key_Plus : Int := 0x2b
def Key_Comma : Int := 0x2c
def Key_Minus : Int := 0x2d
def Key_Period : Int := 0x2e
def Key_Slash : Int := 0x2f
def Key_0 : Int := 0x30
def Key_1 : Int := 0x31
def Key_2 : Int := 0x32
def Key_3 : Int := 0x33
def Key_4 : Int := 0x34
def Key_5 : Int := 0x35
def Key_6 : Int := 0x36
def Key_7 : Int := 0x37
def Key_8 : Int := 0x38
def Key_9 : Int := 0x39
def Key_Colon : Int := 0x3a
def Key_Semicolon : Int := 0x3b
def Key_Less : Int := 0x3c
def Key_Equal : Int := 0x3d
def Key_Greater : Int := 0x3e
def Key_Question : Int := 0x3f
def Key_At : Int := 0x40
def Key_A : Int := 0x41
def Key_B : Int := 0x42
def Key_C : Int := 0x43
def Key_D : Int := 0x44
def Key_E : Int := 0x45
def Key_F : Int := 0x46
def Key_G : Int := 0x47
def Key_H : Int := 0x48
def Key_I : Int := 0x49
def Key_J : Int := 0x4a
def Key_K : Int := 0x4b
def Key_L : Int := 0x4c
def Key_M : Int := 0x4d
def Key_N : Int := 0x4e
def Key_O : Int := 0x4f
def Key_P : Int := 0x50
def Key_Q : Int := 0x51
def Key_R : Int := 0x52
def Key_S : Int := 0x53
def Key_T : Int := 0x54
def Key_U : Int := 0x55
def Key_V : Int := 0x56
def Key_W : Int := 0x57
def Key_X : Int := 0x58
def Key_Y : Int := 0x59
def Key_Z : Int := 0x5a
def Key_BracketLeft : Int := 0x5b
def Key_Backslash : Int := 0x5c
def Key_BracketRight : Int := 0x5d
def Key_AsciiCircum : Int := 0x5e
def Key_Underscore : Int := 0x5f
def Key_QuoteLeft : Int := 0x60
def Key_BraceLeft : Int := 0x7b
def Key_Bar : Int := 0x7c
def Key_BraceRight : Int := 0x7d
def Key_AsciiTilde : Int := 0x7e

end Qt

/-- The enumerators of `ImGuiKey` that the backend produces. -/
inductive ImGuiKey
  | ImGuiKey_None
  | ImGuiKey_Tab | ImGuiKey_LeftArrow | ImGuiKey_RightArrow | ImGuiKey_UpArrow
  | ImGuiKey_DownArrow | ImGuiKey_PageUp | ImGuiKey_PageDown | ImGuiKey_Home
  | ImGuiKey_End | ImGuiKey_Insert | ImGuiKey_Delete | ImGuiKey_Backspace
  | ImGuiKey_Space | ImGuiKey_Enter | ImGuiKey_Escape
  | ImGuiKey_LeftCtrl | ImGuiKey_LeftShift | ImGuiKey_LeftAlt | ImGuiKey_LeftSuper
  | ImGuiKey_RightSuper | ImGuiKey_Menu
  | ImGuiKey_0 | ImGuiKey_1 | ImGuiKey_2 | ImGuiKey_3 | ImGuiKey_4
  | ImGuiKey_5 | ImGuiKey_6 | ImGuiKey_7 | ImGuiKey_8 | ImGuiKey_9
  | ImGuiKey_A | ImGuiKey_B | ImGuiKey_C | ImGuiKey_D | ImGuiKey_E | ImGuiKey_F
  | ImGuiKey_G | ImGuiKey_H | ImGuiKey_I | ImGuiKey_J | ImGuiKey_K | ImGuiKey_L
  | ImGuiKey_M | ImGuiKey_N | ImGuiKey_O | ImGuiKey_P | ImGuiKey_Q | ImGuiKey_R
  | ImGuiKey_S | ImGuiKey_T | ImGuiKey_U | ImGuiKey_V | ImGuiKey_W | ImGuiKey_X
  | ImGuiKey_Y | ImGuiKey_Z
  | ImGuiKey_F1 | ImGuiKey_F2 | ImGuiKey_F3 | ImGuiKey_F4 | ImGuiKey_F5
  | ImGuiKey_F6 | ImGuiKey_F7 | ImGuiKey_F8 | ImGuiKey_F9 | ImGuiKey_F10
  | ImGuiKey_F11 | ImGuiKey_F12
  | ImGuiKey_Apostrophe | ImGuiKey_Comma | ImGuiKey_Minus | ImGuiKey_Period
  | ImGuiKey_Slash | ImGuiKey_Semicolon | ImGuiKey_Equal | ImGuiKey_LeftBracket
  | ImGuiKey_Backslash | ImGuiKey_RightBracket | ImGuiKey_GraveAccent
  | ImGuiKey_CapsLock | ImGuiKey_ScrollLock | ImGuiKey_NumLock
  | ImGuiKey_PrintScreen | ImGuiKey_Pause
  | ImGuiKey_Keypad0 | ImGuiKey_Keypad1 | ImGuiKey_Keypad2 | ImGuiKey_Keypad3
  | ImGuiKey_Keypad4 | ImGuiKey_Keypad5 | ImGuiKey_Keypad6 | ImGuiKey_Keypad7
  | ImGuiKey_Keypad8 | ImGuiKey_Keypad9
  | ImGuiKey_KeypadDecimal | ImGuiKey_KeypadDivide | ImGuiKey_KeypadMultiply
  | ImGuiKey_KeypadSubtract | ImGuiKey_KeypadAdd | ImGuiKey_KeypadEnter
  | ImGuiKey_KeypadEqual
  | ImGuiMod_Ctrl | ImGuiMod_Shift | ImGuiMod_Alt | ImGuiMod_Super
  deriving DecidableEq, Repr

open ImGuiKey

/-- A line handed to `ImGui::DebugLog`. -/
inductive DebugLine
  | unknownKey (key : Int)
  | keyEvent (press : Bool) (key : Int) (nativeScanCode nativeVirtualKey : Nat)
      (modifiers nativeModifiers : Nat)
  deriving DecidableEq, Repr

/-- The test `flags & flag` of a `QFlags` value, read as a boolean. -/
def testFlag (flags flag : Nat) : Bool := (flags &&& flag) != 0

/-! ## Key tables -/

/-- The table `keyToImGuiKeyMap_`, in source order. -/
def keyToImGuiKeyMap_ : List (Int × ImGuiKey) := [
  (Qt.Key_Tab, ImGuiKey_Tab),
  (Qt.Key_Left, ImGuiKey_LeftArrow),
  (Qt.Key_Right, ImGuiKey_RightArrow),
  (Qt.Key_Up, ImGuiKey_UpArrow),
  (Qt.Key_Down, ImGuiKey_DownArrow),
  (Qt.Key_PageUp, ImGuiKey_PageUp),
  (Qt.Key_PageDown, ImGuiKey_PageDown),
  (Qt.Key_Home, ImGuiKey_Home),
  (Qt.Key_End, ImGuiKey_End),
  (Qt.Key_Insert, ImGuiKey_Insert),
  (Qt.Key_Delete, ImGuiKey_Delete),
  (Qt.Key_Backspace, ImGuiKey_Backspace),
  (Qt.Key_Space, ImGuiKey_Space),
  (Qt.Key_Return, ImGuiKey_Enter),
  (Qt.Key_Enter, ImGuiKey_Enter),
  (Qt.Key_Escape, ImGuiKey_Escape),
  (Qt.Key_Control, ImGuiKey_LeftCtrl),
  (Qt.Key_Shift, ImGuiKey_LeftShift),
  (Qt.Key_Alt, ImGuiKey_LeftAlt),
  (Qt.Key_Super_L, ImGuiKey_LeftSuper),
  (Qt.Key_Super_R, ImGuiKey_RightSuper),
  (Qt.Key_Menu, ImGuiKey_Menu),
  (Qt.Key_1, ImGuiKey_1),
  (Qt.Key_2, ImGuiKey_2),
  (Qt.Key_3, ImGuiKey_3),
  (Qt.Key_4, ImGuiKey_4),
  (Qt.Key_5, ImGuiKey_5),
  (Qt.Key_6, ImGuiKey_6),
  (Qt.Key_7, ImGuiKey_7),
  (Qt.Key_8, ImGuiKey_8),
  (Qt.Key_9, ImGuiKey_9),
  (Qt.Key_0, ImGuiKey_0),
  (Qt.Key_Exclam, ImGuiKey_1),
  (Qt.Key_At, ImGuiKey_2),
  (Qt.Key_NumberSign, ImGuiKey_3),
  (Qt.Key_Dollar, ImGuiKey_4),
  (Qt.Key_Percent, ImGuiKey_5),
  (Qt.Key_AsciiCircum, ImGuiKey_6),
  (Qt.Key_Ampersand, ImGuiKey_7),
  (Qt.Key_Asterisk, ImGuiKey_8),
  (Qt.Key_ParenLeft, ImGuiKey_9),
  (Qt.Key_ParenRight, ImGuiKey_0),
  (Qt.Key_A, ImGuiKey_A),
  (Qt.Key_B, ImGuiKey_B),
  (Qt.Key_C, ImGuiKey_C),
  (Qt.Key_D, ImGuiKey_D),
  (Qt.Key_E, ImGuiKey_E),
  (Qt.Key_F, ImGuiKey_F),
  (Qt.Key_G, ImGuiKey_G),
  (Qt.Key_H, ImGuiKey_H),
  (Qt.Key_I, ImGuiKey_I),
  (Qt.Key_J, ImGuiKey_J),
  (Qt.Key_K, ImGuiKey_K),
  (Qt.Key_L, ImGuiKey_L),
  (Qt.Key_M, ImGuiKey_M),
  (Qt.Key_N, ImGuiKey_N),
  (Qt.Key_O, ImGuiKey_O),
  (Qt.Key_P, ImGuiKey_P),
  (Qt.Key_Q, ImGuiKey_Q),
  (Qt.Key_R, ImGuiKey_R),
  (Qt.Key_S, ImGuiKey_S),
  (Qt.Key_T, ImGuiKey_T),
  (Qt.Key_U, ImGuiKey_U),
  (Qt.Key_V, ImGuiKey_V),
  (Qt.Key_W, ImGuiKey_W),
  (Qt.Key_X, ImGuiKey_X),
  (Qt.Key_Y, ImGuiKey_Y),
  (Qt.Key_Z, ImGuiKey_Z),
  (Qt.Key_F1, ImGuiKey_F1),
  (Qt.Key_F2, ImGuiKey_F2),
  (Qt.Key_F3, ImGuiKey_F3),
  (Qt.Key_F4, ImGuiKey_F4),
  (Qt.Key_F5, ImGuiKey_F5),
  (Qt.Key_F6, ImGuiKey_F6),
  (Qt.Key_F7, ImGuiKey_F7),
  (Qt.Key_F8, ImGuiKey_F8),
  (Qt.Key_F9, ImGuiKey_F9),
  (Qt.Key_F10, ImGuiKey_F10),
  (Qt.Key_F11, ImGuiKey_F11),
  (Qt.Key_F12, ImGuiKey_F12),
  (Qt.Key_Apostrophe, ImGuiKey_Apostrophe),
  (Qt.Key_QuoteDbl, ImGuiKey_Apostrophe),
  (Qt.Key_Comma, ImGuiKey_Comma),
  (Qt.Key_Less, ImGuiKey_Comma),
  (Qt.Key_Minus, ImGuiKey_Minus),
  (Qt.Key_Underscore, ImGuiKey_Minus),
  (Qt.Key_Period, ImGuiKey_Period),
  (Qt.Key_Greater, ImGuiKey_Period),
  (Qt.Key_Slash, ImGuiKey_Slash),
  (Qt.Key_Question, ImGuiKey_Slash),
  (Qt.Key_Semicolon, ImGuiKey_Semicolon),
  (Qt.Key_Colon, ImGuiKey_Semicolon),
  (Qt.Key_Equal, ImGuiKey_Equal),
  (Qt.Key_Plus, ImGuiKey_Equal),
  (Qt.Key_BracketLeft, ImGuiKey_LeftBracket),
  (Qt.Key_BraceLeft, ImGuiKey_LeftBracket),
  (Qt.Key_Backslash, ImGuiKey_Backslash),
  (Qt.Key_Bar, ImGuiKey_Backslash),
  (Qt.Key_BracketRight, ImGuiKey_RightBracket),
  (Qt.Key_BraceRight, ImGuiKey_RightBracket),
  (Qt.Key_QuoteLeft, ImGuiKey_GraveAccent),
  (Qt.Key_AsciiTilde, ImGuiKey_GraveAccent),
  (Qt.Key_CapsLock, ImGuiKey_CapsLock),
  (Qt.Key_ScrollLock, ImGuiKey_ScrollLock),
  (Qt.Key_NumLock, ImGuiKey_NumLock),
  (Qt.Key_Print, ImGuiKey_PrintScreen),
  (Qt.Key_Pause, ImGuiKey_Pause)]

/-- The table `numpadKeyToImGuiKeyMap_`, in source order. -/
def numpadKeyToImGuiKeyMap_ : List (Int × ImGuiKey) := [
  (Qt.Key_1, ImGuiKey_Keypad1),
  (Qt.Key_2, ImGuiKey_Keypad2),
  (Qt.Key_3, ImGuiKey_Keypad3),
  (Qt.Key_4, ImGuiKey_Keypad4),
  (Qt.Key_5, ImGuiKey_Keypad5),
  (Qt.Key_6, ImGuiKey_Keypad6),
  (Qt.Key_7, ImGuiKey_Keypad7),
  (Qt.Key_8, ImGuiKey_Keypad8),
  (Qt.Key_9, ImGuiKey_Keypad9),
  (Qt.Key_0, ImGuiKey_Keypad0),
  (Qt.Key_Period, ImGuiKey_KeypadDecimal),
  (Qt.Key_Slash, ImGuiKey_KeypadDivide),
  (Qt.Key_Asterisk, ImGuiKey_KeypadMultiply),
  (Qt.Key_Minus, ImGuiKey_KeypadSubtract),
  (Qt.Key_Plus, ImGuiKey_KeypadAdd),
  (Qt.Key_Equal, ImGuiKey_KeypadEqual),
  (Qt.Key_Enter, ImGuiKey_KeypadEnter)]

/-- The member `find` of a table built from an initializer list: the entry of
the first pair with the given key (later pairs with an equal key are not
inserted). -/
def find {β : Type} (table : List (Int × β)) (key : Int) : Option β :=
  match table with
  | [] => none
  | (k, v) :: rest => if key = k then some v else find rest key

/-- `ImGuiQtBackend::KeyToImGuiKey`: the translated key, paired with the lines
it hands to `ImGui::DebugLog`. -/
def KeyToImGuiKey (key : Int) (modifiers : Nat) : ImGuiKey × List DebugLine :=
  -- Numpad
  match (if testFlag modifiers Qt.KeypadModifier
         then find numpadKeyToImGuiKeyMap_ key else none) with
  | some v => (v, [])
  | none =>
    -- Standard key
    match find keyToImGuiKeyMap_ key with
    | some v => (v, [])
    | none =>
      -- Key not found
      (ImGuiKey_None, if key ≠ 0 then [DebugLine.unknownKey key] else [])

/-! ## Floating point -/

/-- Rounding of a rational to an integer, to nearest, a tie going to the even
neighbour. -/
def roundHalfEven (x : ℚ) : ℤ :=
  let f := ⌊x⌋
  let r := x - f
  if r < 1 / 2 then f else if 1 / 2 < r then f + 1 else if f % 2 = 0 then f else f + 1

/-- Rounding of a rational to a binary floating-point number with `precision`
significant bits, to nearest, ties to even (the default rounding of IEEE 754
arithmetic). The exponent range is not limited: the values rounded in this
file, quotients of 32-bit integers by 8 and by 120, lie well inside the normal
range of `double` and of `float`. -/
def roundNearestEven (precision : ℕ) (q : ℚ) : ℚ :=
  if q = 0 then 0
  else
    let e := Int.log 2 |q|
    let ulp : ℚ := 2 ^ (e - ((precision : ℤ) - 1))
    (roundHalfEven (q / ulp) : ℚ) * ulp

/-- The result of an arithmetic operation on `qreal` (`double`, 53 significant
bits): the exact result, rounded. -/
def roundToDouble (q : ℚ) : ℚ := roundNearestEven 53 q

/-- The conversion `static_cast<float>` of a `double` (24 significant bits). -/
def static_cast_float (q : ℚ) : ℚ := roundNearestEven 24 q

/-! ## Geometry, handles, events -/

/-- A `QPoint`: integer coordinates. -/
structure QPoint where
  x : Int
  y : Int
  deriving DecidableEq, Repr

/-- `QPoint::isNull`: both coordinates are zero. -/
def QPoint.isNull (p : QPoint) : Bool := p.x == 0 && p.y == 0

/-- A `QPointF`: `qreal` coordinates. -/
structure QPointF where
  x : ℚ
  y : ℚ
  deriving DecidableEq, Repr

/-- `QPointF::isNull`: both coordinates are zero. -/
def QPointF.isNull (p : QPointF) : Bool := p.x == 0 && p.y == 0

/-- The converting constructor `QPointF(const QPoint&)`. -/
def QPointF.ofQPoint (p : QPoint) : QPointF := ⟨(p.x : ℚ), (p.y : ℚ)⟩

/-- The operator `QPointF / qreal`: each coordinate is divided in `double`. -/
def QPointF.div (p : QPointF) (divisor : ℚ) : QPointF :=
  ⟨roundToDouble (p.x / divisor), roundToDouble (p.y / divisor)⟩

/-- A `QSize`. -/
structure QSize where
  width : Int
  height : Int
  deriving DecidableEq, Repr

/-- An `ImVec2`. -/
structure ImVec2 where
  x : ℚ
  y : ℚ
  deriving DecidableEq, Repr

/-- The constant `FLT_MAX` of `<cfloat>`: `(2 - 2^(-23)) * 2^127`. -/
def FLT_MAX : ℚ := 340282346638528859811704183484516925440

/-- A `QObject*` handed to the backend: its address and what `isWidgetType()`
and `isWindowType()` answer for it. -/
structure QObject where
  address : Nat
  isWidgetType : Bool
  isWindowType : Bool
  deriving DecidableEq, Repr

/-- The values of `QEvent::Type` the filter distinguishes; every other type is
`Other`. -/
inductive QEventType
  | Enter | Leave | FocusIn | FocusOut | KeyPress | KeyRelease
  | MouseButtonPress | MouseButtonRelease | MouseMove | Wheel | Other
  deriving DecidableEq, Repr

/-- A raw toolkit event: its type and the accessors the handlers read after
casting it to `QEnterEvent`, `QKeyEvent`, `QMouseEvent` or `QWheelEvent`. -/
structure QEvent where
  type : QEventType
  position : QPointF := ⟨0, 0⟩
  globalPosition : QPointF := ⟨0, 0⟩
  key : Int := 0
  modifiers : Nat := 0
  text : String := ""
  nativeScanCode : Nat := 0
  nativeVirtualKey : Nat := 0
  nativeModifiers : Nat := 0
  button : Nat := 0
  pixelDelta : QPoint := ⟨0, 0⟩
  angleDelta : QPoint := ⟨0, 0⟩
  deriving DecidableEq, Repr

/-- The values of `Qt::CursorShape` the backend sets. -/
inductive CursorShape
  | ArrowCursor | IBeamCursor | SizeVerCursor | SizeHorCursor | PointingHandCursor
  | SizeAllCursor | SizeBDiagCursor | SizeFDiagCursor | ForbiddenCursor | BlankCursor
  deriving DecidableEq, Repr

/-- A call the backend makes on a toolkit object. -/
inductive QtCall
  | update (widget : QObject)
  | setCursor (object : QObject) (shape : CursorShape)
  | setMouseTracking (widget : QObject) (enable : Bool)
  | installEventFilter (object : QObject)
  | removeEventFilter (object : QObject)
  deriving DecidableEq, Repr

/-! ## The UI library -/

/-- A call of an input mutator of `ImGuiIO`. -/
inductive IoCall
  | AddKeyEvent (key : ImGuiKey) (down : Bool)
  | AddMouseButtonEvent (button : Int) (down : Bool)
  | AddMouseWheelEvent (wheel_x wheel_y : ℚ)
  | AddMousePosEvent (x y : ℚ)
  | AddFocusEvent (focused : Bool)
  | AddInputCharactersUTF8 (str : String)
  | SetKeyEventNativeData (key : ImGuiKey) (native_keycode native_scancode : Nat)
  deriving DecidableEq, Repr

/-- Values of `ImGuiMouseCursor`. -/
def ImGuiMouseCursor_None : Int := -1
def ImGuiMouseCursor_Arrow : Int := 0
def ImGuiMouseCursor_TextInput : Int := 1
def ImGuiMouseCursor_ResizeAll : Int := 2
def ImGuiMouseCursor_ResizeNS : Int := 3
def ImGuiMouseCursor_ResizeEW : Int := 4
def ImGuiMouseCursor_ResizeNESW : Int := 5
def ImGuiMouseCursor_ResizeNWSE : Int := 6
def ImGuiMouseCursor_Hand : Int := 7
def ImGuiMouseCursor_NotAllowed : Int := 8

/-- Values of `ImGuiMouseButton`. -/
def ImGuiMouseButton_Left : Int := 0
def ImGuiMouseButton_Right : Int := 1
def ImGuiMouseButton_Middle : Int := 2

/-- Values of `ImGuiConfigFlags` and `ImGuiBackendFlags`. -/
def ImGuiConfigFlags_NoMouseCursorChange : Nat := 1 <<< 5
def ImGuiBackendFlags_HasMouseCursors : Nat := 1 <<< 1

/-- The state of the UI library the backend reads and writes: the fields of
`ImGuiIO` it touches, the value of `ImGui::GetMouseCursor()`, whether the
library is built with `IMGUI_HAS_DOCK`, and the traces of the input mutator
calls and of the `ImGui::DebugLog` lines received so far. -/
structure ImGuiIO where
  ConfigFlags : Nat
  BackendFlags : Nat
  BackendPlatformName : Option String
  DisplaySize : ImVec2
  DisplayFramebufferScale : ImVec2
  DeltaTime : ℚ
  MousePos : ImVec2
  MouseDrawCursor : Bool
  MouseCursor : Int
  IMGUI_HAS_DOCK : Bool
  calls : List IoCall
  debugLog : List DebugLine
  deriving DecidableEq, Repr

/-- The flag `ImGuiConfigFlags_ViewportsEnable`: defined by the library when it
is built with `IMGUI_HAS_DOCK`, and else defined as 0 by the backend. -/
def ImGuiConfigFlags_ViewportsEnable (io : ImGuiIO) : Nat :=
  if io.IMGUI_HAS_DOCK then 1 <<< 10 else 0

/-- An input mutator is called on the UI library. -/
def ImGuiIO.call (io : ImGuiIO) (c : IoCall) : ImGuiIO :=
  { io with calls := io.calls ++ [c] }

/-- `ImGui::DebugLog` is called with each of the given lines. -/
def ImGuiIO.DebugLog (io : ImGuiIO) (lines : List DebugLine) : ImGuiIO :=
  { io with debugLog := io.debugLog ++ lines }

/-! ## Deferred actions -/

/-- A deferred action: one constructor per lambda pushed on an event queue,
named after the function that pushes it, with the values the lambda captures
(`io_` is reached through the captured `this`). -/
inductive Action
  | UpdateKeyModifiers (modifiers : Nat)
  | HandleMouseButtonPress (button : Int) (eventType : QEventType)
  | HandleWheelPixels (numPixels : QPoint)
  | HandleWheelDegrees (numDegrees : QPointF)
  | HandleKeyPress (imguiKey : ImGuiKey) (eventType : QEventType) (eventText : String)
  | HandleFocus (eventType : QEventType)
  | HandleMouseMove (position : QPointF)
  | HandleEnter (position : QPointF)
  | HandleLeave
  deriving DecidableEq, Repr

/-- The calls on `io_` in the body of each lambda, in order. -/
def Action.calls : Action → List IoCall
  | .UpdateKeyModifiers modifiers =>
    [.AddKeyEvent ImGuiMod_Ctrl (testFlag modifiers Qt.ControlModifier),
     .AddKeyEvent ImGuiMod_Shift (testFlag modifiers Qt.ShiftModifier),
     .AddKeyEvent ImGuiMod_Alt (testFlag modifiers Qt.AltModifier),
     .AddKeyEvent ImGuiMod_Super (testFlag modifiers Qt.MetaModifier)]
  | .HandleMouseButtonPress button eventType =>
    [.AddMouseButtonEvent button (eventType == QEventType.MouseButtonPress)]
  | .HandleWheelPixels numPixels =>
    [.AddMouseWheelEvent (numPixels.x : ℚ) (numPixels.y : ℚ)]
  | .HandleWheelDegrees numDegrees =>
    let numSteps := numDegrees.div 15
    [.AddMouseWheelEvent (static_cast_float numSteps.x) (static_cast_float numSteps.y)]
  | .HandleKeyPress imguiKey eventType eventText =>
    .AddKeyEvent imguiKey (eventType == QEventType.KeyPress) ::
      (if eventType == QEventType.KeyPress && eventText.length > 0 then
        [.AddInputCharactersUTF8 eventText]
      else [])
  | .HandleFocus eventType => [.AddFocusEvent (eventType == QEventType.FocusIn)]
  | .HandleMouseMove position => [.AddMousePosEvent position.x position.y]
  | .HandleEnter position => [.AddMousePosEvent position.x position.y]
  | .HandleLeave => [.AddMousePosEvent (-FLT_MAX) (-FLT_MAX)]

/-- The call operator of a queued lambda: its calls are made on the UI
library, one after the other. -/
def Action.invoke (io : ImGuiIO) (action : Action) : ImGuiIO :=
  action.calls.foldl ImGuiIO.call io

/-! ## The backend object -/

/-- How a call ends when it does not return: `std::out_of_range` thrown by
`unordered_map::at`, or a failed `IM_ASSERT`. No state is observed after
either. -/
inductive Error
  | out_of_range
  | assertion
  deriving DecidableEq, Repr

/-- Ticks per second of `std::chrono::steady_clock` (nanosecond ticks). -/
def steady_clock_ticks_per_second : ℚ := 1000000000

/-- The class `ImGuiQtBackend`: the `ImGuiIO` its member `io_` refers to, its
data members (`time_` in clock ticks, a default-constructed `time_point`
being 0), and the trace `qt` of the calls it has made on toolkit objects. -/
structure ImGuiQtBackend where
  io_ : ImGuiIO
  eventQueue_ : QObject → Option (List Action)
  time_ : Int
  debugEnabled_ : Bool
  wantUpdateMonitors_ : Bool
  focusedObject_ : Option QObject
  keyboardObject_ : Option QObject
  mouseObject_ : Option QObject
  lastValidMousePosition_ : ImVec2
  qt : List QtCall

/-- The constructor `ImGuiQtBackend::ImGuiQtBackend(io, bd)` with the default
member initializers of the class. -/
def ImGuiQtBackend.new (io : ImGuiIO) : ImGuiQtBackend where
  io_ := io
  eventQueue_ := fun _ => none
  time_ := 0
  debugEnabled_ := false
  wantUpdateMonitors_ := false
  focusedObject_ := none
  keyboardObject_ := none
  mouseObject_ := none
  lastValidMousePosition_ := ⟨-FLT_MAX, -FLT_MAX⟩
  qt := []

/-- The struct `ImGui_ImplQt_Data`. -/
structure ImGui_ImplQt_Data where
  backend_ : ImGuiQtBackend
  clipboard_ : String
  registeredObjects_ : List QObject

/-- The expression `eventQueue_.at(watched).push_back(action)`. -/
def push_back (b : ImGuiQtBackend) (watched : QObject) (action : Action) :
    Except Error ImGuiQtBackend :=
  match b.eventQueue_ watched with
  | none => .error .out_of_range
  | some queue =>
    .ok { b with eventQueue_ := Function.update b.eventQueue_ watched (some (queue ++ [action])) }

/-- The table `imGuiCursorMap_`, in source order. -/
def imGuiCursorMap_ : List (Int × CursorShape) := [
  (ImGuiMouseCursor_Arrow, .ArrowCursor),
  (ImGuiMouseCursor_TextInput, .IBeamCursor),
  (ImGuiMouseCursor_ResizeNS, .SizeVerCursor),
  (ImGuiMouseCursor_ResizeEW, .SizeHorCursor),
  (ImGuiMouseCursor_Hand, .PointingHandCursor),
  (ImGuiMouseCursor_ResizeAll, .SizeAllCursor),
  (ImGuiMouseCursor_ResizeNESW, .SizeBDiagCursor),
  (ImGuiMouseCursor_ResizeNWSE, .SizeFDiagCursor),
  (ImGuiMouseCursor_NotAllowed, .ForbiddenCursor)]

/-- `ImGuiQtBackend::ImGuiCursorToCursorShape`. -/
def ImGuiCursorToCursorShape (cursor : Int) : CursorShape :=
  match find imGuiCursorMap_ cursor with
  | some shape => shape
  | none => .ArrowCursor

/-- `ImGuiQtBackend::UpdateKeyModifiers`. -/
def UpdateKeyModifiers (b : ImGuiQtBackend) (watched : QObject) (modifiers : Nat) :
    Except Error ImGuiQtBackend :=
  push_back b watched (.UpdateKeyModifiers modifiers)

/-- `ImGuiQtBackend::ButtonToImGuiMouseButton`. -/
def ButtonToImGuiMouseButton (mouseButton : Nat) : Int :=
  if mouseButton = Qt.LeftButton then ImGuiMouseButton_Left
  else if mouseButton = Qt.RightButton then ImGuiMouseButton_Right
  else if mouseButton = Qt.MiddleButton then ImGuiMouseButton_Middle
  else -1

/-- `ImGuiQtBackend::HandleMouseButtonPress`. -/
def HandleMouseButtonPress (b : ImGuiQtBackend) (watched : QObject) (event : QEvent) :
    Except Error ImGuiQtBackend :=
  let button := ButtonToImGuiMouseButton event.button
  if button = -1 then
    -- Ignore press
    .ok b
  else
    let b1 := { b with mouseObject_ := some watched }
    let eventType := event.type
    push_back b1 watched (.HandleMouseButtonPress button eventType)

/-- `ImGuiQtBackend::HandleWheel`. -/
def HandleWheel (b : ImGuiQtBackend) (watched : QObject) (event : QEvent) :
    Except Error ImGuiQtBackend :=
  let numPixels := event.pixelDelta
  let numDegrees := (QPointF.ofQPoint event.angleDelta).div 8
  let b1 := { b with mouseObject_ := some watched }
  if !numPixels.isNull then
    push_back b1 watched (.HandleWheelPixels numPixels)
  else if !numDegrees.isNull then
    push_back b1 watched (.HandleWheelDegrees numDegrees)
  else .ok b1

/-- `ImGuiQtBackend::HandleKeyPress`. -/
def HandleKeyPress (b : ImGuiQtBackend) (watched : QObject) (event : QEvent) :
    Except Error ImGuiQtBackend :=
  let b1 := { b with keyboardObject_ := some watched }
  let line := DebugLine.keyEvent (event.type == QEventType.KeyPress) event.key
    event.nativeScanCode event.nativeVirtualKey event.modifiers event.nativeModifiers
  let b2 := if b1.debugEnabled_ then { b1 with io_ := b1.io_.DebugLog [line] } else b1
  match UpdateKeyModifiers b2 watched event.modifiers with
  | .error e => .error e
  | .ok b3 =>
    let translated := KeyToImGuiKey event.key event.modifiers
    let imguiKey := translated.1
    let io1 := (b3.io_.DebugLog translated.2).call
      (.SetKeyEventNativeData imguiKey event.nativeVirtualKey event.nativeScanCode)
    let b4 := { b3 with io_ := io1 }
    let eventType := event.type
    let eventText := event.text
    push_back b4 watched (.HandleKeyPress imguiKey eventType eventText)

/-- `ImGuiQtBackend::HandleFocus`. -/
def HandleFocus (b : ImGuiQtBackend) (watched : QObject) (event : QEvent) :
    Except Error ImGuiQtBackend :=
  if event.type = QEventType.FocusOut ∧ b.focusedObject_ ≠ some watched then
    .ok b
  else
    let b1 := { b with
      focusedObject_ := if event.type = QEventType.FocusIn then some watched else none }
    let eventType := event.type
    push_back b1 watched (.HandleFocus eventType)

/-- `ImGuiQtBackend::HandleMouseMove`. -/
def HandleMouseMove (b : ImGuiQtBackend) (watched : QObject) (event : QEvent) :
    Except Error ImGuiQtBackend :=
  let position :=
    if testFlag b.io_.ConfigFlags (ImGuiConfigFlags_ViewportsEnable b.io_) then
      event.globalPosition
    else event.position
  let b1 := { b with
    mouseObject_ := some watched
    lastValidMousePosition_ := ⟨position.x, position.y⟩ }
  push_back b1 watched (.HandleMouseMove position)

/-- `ImGuiQtBackend::HandleEnter`. -/
def HandleEnter (b : ImGuiQtBackend) (watched : QObject) (event : QEvent) :
    Except Error ImGuiQtBackend :=
  let position :=
    if testFlag b.io_.ConfigFlags (ImGuiConfigFlags_ViewportsEnable b.io_) then
      event.globalPosition
    else event.position
  let b1 := { b with
    mouseObject_ := some watched
    lastValidMousePosition_ := ⟨position.x, position.y⟩ }
  push_back b1 watched (.HandleEnter position)

/-- `ImGuiQtBackend::HandleLeave`. -/
def HandleLeave (b : ImGuiQtBackend) (watched : QObject) (_event : QEvent) :
    Except Error ImGuiQtBackend :=
  let b1 :=
    if b.mouseObject_ = some watched then
      { b with mouseObject_ := none, lastValidMousePosition_ := b.io_.MousePos }
    else b
  push_back b1 watched .HandleLeave

/-- `ImGuiQtBackend::MonitorCallback`. -/
def MonitorCallback (b : ImGuiQtBackend) : ImGuiQtBackend :=
  { b with wantUpdateMonitors_ := true }

/-- `ImGuiQtBackend::UpdateMonitors`: a stub. -/
def UpdateMonitors (b : ImGuiQtBackend) : ImGuiQtBackend := b

/-- `ImGuiQtBackend::UpdateMouseData`: a stub. -/
def UpdateMouseData (b : ImGuiQtBackend) : ImGuiQtBackend := b

/-- `ImGuiQtBackend::InitPlatformInterface`: a stub. -/
def InitPlatformInterface (b : ImGuiQtBackend) : ImGuiQtBackend := b

/-- `ImGuiQtBackend::ShutdownPlatformInterface`: a stub. -/
def ShutdownPlatformInterface (b : ImGuiQtBackend) : ImGuiQtBackend := b

/-- The body of the loop of `ImGuiQtBackend::UpdateMouseCursor` for one
registered object: the `setCursor` call it makes, if any. -/
def UpdateMouseCursor_object (io : ImGuiIO) (imguiCursor : Int) (object : QObject) :
    Option QtCall :=
  if imguiCursor = ImGuiMouseCursor_None ∨ io.MouseDrawCursor = true then
    -- Hide mouse cursor if imgui is drawing it or if it wants no cursor
    if object.isWidgetType then some (.setCursor object .BlankCursor)
    else if object.isWindowType then some (.setCursor object .BlankCursor)
    else none
  else
    -- Show mouse cursor
    if object.isWidgetType then some (.setCursor object (ImGuiCursorToCursorShape imguiCursor))
    else if object.isWindowType then
      some (.setCursor object (ImGuiCursorToCursorShape imguiCursor))
    else none

/-- `ImGuiQtBackend::UpdateMouseCursor`, given `bd->registeredObjects_`. -/
def UpdateMouseCursor (b : ImGuiQtBackend) (registeredObjects_ : List QObject) :
    ImGuiQtBackend :=
  if testFlag b.io_.ConfigFlags ImGuiConfigFlags_NoMouseCursorChange then b
  else
    let imguiCursor := b.io_.MouseCursor
    { b with qt := b.qt ++
        registeredObjects_.filterMap (UpdateMouseCursor_object b.io_ imguiCursor) }

/-- `ImGuiQtBackend::eventFilter`: the value returned (that of
`QObject::eventFilter`, which is `false`) and the backend after the call. -/
def eventFilter (b : ImGuiQtBackend) (watched : QObject) (event : QEvent) :
    Except Error (Bool × ImGuiQtBackend) :=
  let handled : Except Error (ImGuiQtBackend × Bool) :=
    match event.type with
    | .Enter => (HandleEnter b watched event).map (fun r => (r, true))
    | .Leave => (HandleLeave b watched event).map (fun r => (r, true))
    | .FocusIn => (HandleFocus b watched event).map (fun r => (r, true))
    | .FocusOut => (HandleFocus b watched event).map (fun r => (r, true))
    | .KeyPress => (HandleKeyPress b watched event).map (fun r => (r, true))
    | .KeyRelease => (HandleKeyPress b watched event).map (fun r => (r, true))
    | .MouseButtonPress => (HandleMouseButtonPress b watched event).map (fun r => (r, true))
    | .MouseButtonRelease => (HandleMouseButtonPress b watched event).map (fun r => (r, true))
    | .MouseMove => (HandleMouseMove b watched event).map (fun r => (r, true))
    | .Wheel => (HandleWheel b watched event).map (fun r => (r, true))
    | .Other => .ok (b, false)
  match handled with
  | .error e => .error e
  | .ok (b1, widgetNeedsUpdate) =>
    let b2 :=
      if widgetNeedsUpdate && watched.isWidgetType then
        { b1 with qt := b1.qt ++ [.update watched] }
      else b1
    .ok (false, b2)

/-- `ImGuiQtBackend::RegisterObject`: the expression `eventQueue_[object]`. -/
def RegisterObject (b : ImGuiQtBackend) (object : QObject) : ImGuiQtBackend :=
  -- Make sure an entry exists in the event queue for this object
  match b.eventQueue_ object with
  | some _ => b
  | none => { b with eventQueue_ := Function.update b.eventQueue_ object (some []) }

/-- The loop `while (!queue.empty()) { queue.front()(); queue.pop_front(); }`
of `NewFrame`, as a recursion on the deque: the lambdas reach `io_` only, so
the deque is not changed by invoking one. -/
def processEvents : List Action → ImGuiIO → ImGuiIO
  | [], io => io
  | front :: rest, io => processEvents rest (front.invoke io)

/-- `ImGuiQtBackend::NewFrame`, given `bd->registeredObjects_`, the value of
`object->size()` and the value of `std::chrono::steady_clock::now()`. -/
def NewFrame (b : ImGuiQtBackend) (registeredObjects_ : List QObject) (object : QObject)
    (widgetSize : QSize) (currentTime : Int) : Except Error ImGuiQtBackend :=
  -- Setup display size (every frame to accommodate for window resizing)
  let b1 := { b with io_ := { b.io_ with
    DisplaySize := ⟨(widgetSize.width : ℚ), (widgetSize.height : ℚ)⟩
    DisplayFramebufferScale := ⟨1, 1⟩ } }
  let b2 := if b1.wantUpdateMonitors_ then UpdateMonitors b1 else b1
  -- Setup time step
  let b3 := { b2 with
    io_ := { b2.io_ with
      DeltaTime :=
        if b2.time_ > 0 then ((currentTime - b2.time_ : Int) : ℚ) / steady_clock_ticks_per_second
        else 1 / 60 }
    time_ := currentTime }
  match b3.eventQueue_ object with
  | none => .error .out_of_range
  | some queue =>
    -- If there are events in the queue, trigger an additional update
    let b4 :=
      if !queue.isEmpty && object.isWidgetType then
        { b3 with qt := b3.qt ++ [.update object] }
      else b3
    -- Process events
    let b5 := { b4 with
      io_ := processEvents queue b4.io_
      eventQueue_ := Function.update b4.eventQueue_ object (some []) }
    .ok (UpdateMouseCursor (UpdateMouseData b5) registeredObjects_)

/-- `ImGuiQtBackend::Init`. -/
def ImGuiQtBackend.Init (b : ImGuiQtBackend) : ImGuiQtBackend :=
  -- Update monitors the first time
  let b1 := UpdateMonitors { b with wantUpdateMonitors_ := true }
  if testFlag b1.io_.ConfigFlags (ImGuiConfigFlags_ViewportsEnable b1.io_) then
    InitPlatformInterface b1
  else b1

/-! ## The exported functions

Each takes the value of `ImGui_ImplQt_GetBackendData()` (`none` for a null
pointer) and returns the value it has afterwards. -/

/-- `ImGui_ImplQt_Init`, given the `ImGuiIO` of the current context and the
text of the system clipboard. -/
def ImGui_ImplQt_Init (io : ImGuiIO) (bd : Option ImGui_ImplQt_Data) (clipboardText : String) :
    Except Error (Option ImGui_ImplQt_Data) :=
  match bd with
  | some _ => .error .assertion
  | none =>
    let io1 := { io with
      BackendPlatformName := some "imgui_impl_qt"
      BackendFlags := io.BackendFlags ||| ImGuiBackendFlags_HasMouseCursors }
    let backend := ImGuiQtBackend.new io1
    .ok (some { backend_ := backend.Init, clipboard_ := clipboardText, registeredObjects_ := [] })

/-- `ImGui_ImplQt_RegisterObject`. -/
def ImGui_ImplQt_RegisterObject (bd : Option ImGui_ImplQt_Data) (object : QObject) :
    Except Error (Option ImGui_ImplQt_Data) :=
  match bd with
  | none => .error .assertion
  | some bd =>
    -- Register the object with the backend
    let backend1 := RegisterObject bd.backend_ object
    -- Setup widget callbacks
    let backend2 := { backend1 with qt := backend1.qt ++ [.installEventFilter object] }
    -- Add to list of registered objects
    .ok (some { bd with
      backend_ := backend2
      registeredObjects_ := bd.registeredObjects_ ++ [object] })

/-- `ImGui_ImplQt_RegisterWidget`. -/
def ImGui_ImplQt_RegisterWidget (bd : Option ImGui_ImplQt_Data) (widget : QObject) :
    Except Error (Option ImGui_ImplQt_Data) :=
  ImGui_ImplQt_RegisterObject
    (bd.map fun d => { d with backend_ := { d.backend_ with
      qt := d.backend_.qt ++ [.setMouseTracking widget true] } })
    widget

/-- `ImGui_ImplQt_RegisterWindow`. -/
def ImGui_ImplQt_RegisterWindow (bd : Option ImGui_ImplQt_Data) (window : QObject) :
    Except Error (Option ImGui_ImplQt_Data) :=
  ImGui_ImplQt_RegisterObject bd window

/-- `ImGui_ImplQt_UnregisterObject`. -/
def ImGui_ImplQt_UnregisterObject (bd : Option ImGui_ImplQt_Data) (object : QObject) :
    Option ImGui_ImplQt_Data :=
  match bd with
  | none =>
    -- Ignore when context has already been destroyed
    none
  | some bd =>
    -- Uninstall widget callbacks
    let backend1 := { bd.backend_ with qt := bd.backend_.qt ++ [.removeEventFilter object] }
    -- Remove from list of registered objects
    some { bd with
      backend_ := backend1
      registeredObjects_ := bd.registeredObjects_.erase object }

/-- `ImGui_ImplQt_UnregisterWidget`. -/
def ImGui_ImplQt_UnregisterWidget (bd : Option ImGui_ImplQt_Data) (widget : QObject) :
    Option ImGui_ImplQt_Data :=
  ImGui_ImplQt_UnregisterObject bd widget

/-- `ImGui_ImplQt_UnregisterWindow`. -/
def ImGui_ImplQt_UnregisterWindow (bd : Option ImGui_ImplQt_Data) (window : QObject) :
    Option ImGui_ImplQt_Data :=
  ImGui_ImplQt_UnregisterObject bd window

/-- `ImGui_ImplQt_NewFrame`, for a widget or a window. -/
def ImGui_ImplQt_NewFrame (bd : Option ImGui_ImplQt_Data) (object : QObject)
    (widgetSize : QSize) (currentTime : Int) : Except Error (Option ImGui_ImplQt_Data) :=
  match bd with
  | none => .error .assertion
  | some bd =>
    match NewFrame bd.backend_ bd.registeredObjects_ object widgetSize currentTime with
    | .error e => .error e
    | .ok backend => .ok (some { bd with backend_ := backend })

/-- The toolkit delivers an event of `watched` to the installed filter,
`bd->backend_->eventFilter(watched, event)`. -/
def deliverEvent (bd : Option ImGui_ImplQt_Data) (watched : QObject) (event : QEvent) :
    Except Error (Option ImGui_ImplQt_Data) :=
  match bd with
  | none => .ok none
  | some bd =>
    match eventFilter bd.backend_ watched event with
    | .error e => .error e
    | .ok r => .ok (some { bd with backend_ := r.2 })

/-! ## Runs -/

/-- The actions `eventFilter` pushes on the queue of `watched` for `event` in
backend state `b`, in push order, read off the handler the filter selects. -/
def enqueuedActions (b : ImGuiQtBackend) (event : QEvent) (watched : QObject) : List Action :=
  let position :=
    if testFlag b.io_.ConfigFlags (ImGuiConfigFlags_ViewportsEnable b.io_) then
      event.globalPosition
    else event.position
  match event.type with
  | .Enter => [.HandleEnter position]
  | .Leave => [.HandleLeave]
  | .FocusIn => [.HandleFocus event.type]
  | .FocusOut => if b.focusedObject_ ≠ some watched then [] else [.HandleFocus event.type]
  | .KeyPress | .KeyRelease =>
    [.UpdateKeyModifiers event.modifiers,
     .HandleKeyPress (KeyToImGuiKey event.key event.modifiers).1 event.type event.text]
  | .MouseButtonPress | .MouseButtonRelease =>
    if ButtonToImGuiMouseButton event.button = -1 then []
    else [.HandleMouseButtonPress (ButtonToImGuiMouseButton event.button) event.type]
  | .MouseMove => [.HandleMouseMove position]
  | .Wheel =>
    if !event.pixelDelta.isNull then [.HandleWheelPixels event.pixelDelta]
    else if !((QPointF.ofQPoint event.angleDelta).div 8).isNull then
      [.HandleWheelDegrees ((QPointF.ofQPoint event.angleDelta).div 8)]
    else []
  | .Other => []

/-- The events of a list are delivered, in order, to `eventFilter` with the
same watched object. -/
def eventFilterAll (b : ImGuiQtBackend) (watched : QObject) :
    List QEvent → Except Error ImGuiQtBackend
  | [] => .ok b
  | event :: rest =>
    match eventFilter b watched event with
    | .error e => .error e
    | .ok r => eventFilterAll r.2 watched rest

/-- The actions pushed while the events of a list are delivered in order:
those of the first event in the starting state, then those of the following
events in the states the filter leaves. -/
def enqueuedActionsAll (b : ImGuiQtBackend) (watched : QObject) : List QEvent → List Action
  | [] => []
  | event :: rest =>
    enqueuedActions b event watched ++
      (match eventFilter b watched event with
       | .error _ => []
       | .ok r => enqueuedActionsAll r.2 watched rest)

/-- One step of the host: a call of an exported function, or an event the
toolkit delivers to the filter. -/
inductive Call
  | RegisterWidget (widget : QObject)
  | RegisterWindow (window : QObject)
  | UnregisterWidget (widget : QObject)
  | UnregisterWindow (window : QObject)
  | deliver (watched : QObject) (event : QEvent)
  | NewFrame (object : QObject) (widgetSize : QSize) (currentTime : Int)
  deriving DecidableEq, Repr

/-- The effect of one step on the backend data. -/
def Call.run (bd : Option ImGui_ImplQt_Data) : Call → Except Error (Option ImGui_ImplQt_Data)
  | .RegisterWidget widget => ImGui_ImplQt_RegisterWidget bd widget
  | .RegisterWindow window => ImGui_ImplQt_RegisterWindow bd window
  | .UnregisterWidget widget => .ok (ImGui_ImplQt_UnregisterWidget bd widget)
  | .UnregisterWindow window => .ok (ImGui_ImplQt_UnregisterWindow bd window)
  | .deliver watched event => deliverEvent bd watched event
  | .NewFrame object widgetSize currentTime =>
    ImGui_ImplQt_NewFrame bd object widgetSize currentTime

/-- The steps of a list are run in order; the run stops at the first step
that does not return. -/
def runCalls (bd : Option ImGui_ImplQt_Data) :
    List Call → Except Error (Option ImGui_ImplQt_Data)
  | [] => .ok bd
  | c :: rest =>
    match c.run bd with
    | .error e => .error e
    | .ok bd1 => runCalls bd1 rest

/-- `ImGui_ImplQt_Init` on a context without backend, followed by the steps of
a list. -/
def runFromInit (io : ImGuiIO) (clipboardText : String) (calls : List Call) :
    Except Error (Option ImGui_ImplQt_Data) :=
  match ImGui_ImplQt_Init io none clipboardText with
  | .error e => .error e
  | .ok bd => runCalls bd calls

/-- The backend data `bd` is reached from `ImGui_ImplQt_Init` by some sequence
of registrations, unregistrations, delivered events and `NewFrame` calls. -/
def Reachable (bd : ImGui_ImplQt_Data) : Prop :=
  ∃ (io : ImGuiIO) (clipboardText : String) (calls : List Call),
    runFromInit io clipboardText calls = .ok (some bd)

/-- Every registered object has a queue. -/
def RegisteredHaveQueue (bd : Option ImGui_ImplQt_Data) : Prop :=
  ∀ d, bd = some d → ∀ o ∈ d.registeredObjects_, (d.backend_.eventQueue_ o).isSome = true

/-- Whether a step of the host is a call of `ImGui_ImplQt_NewFrame`. -/
def Call.isNewFrame : Call → Bool
  | .NewFrame _ _ _ => true
  | _ => false

/-- The calls `eventFilter` makes on `io_` itself while it handles `event`,
read off the handlers: `HandleKeyPress` calls `SetKeyEventNativeData` outside
its lambdas, and no other handler calls `io_`. -/
def synchronousCalls (event : QEvent) : List IoCall :=
  match event.type with
  | .KeyPress | .KeyRelease =>
    [.SetKeyEventNativeData (KeyToImGuiKey event.key event.modifiers).1
      event.nativeVirtualKey event.nativeScanCode]
  | _ => []

/-! ## Sample values -/

/-- An `ImGuiIO` as a new context has it: no flags, mouse position unset. -/
def sampleIo : ImGuiIO where
  ConfigFlags := 0
  BackendFlags := 0
  BackendPlatformName := none
  DisplaySize := ⟨-1, -1⟩
  DisplayFramebufferScale := ⟨1, 1⟩
  DeltaTime := 1 / 60
  MousePos := ⟨-FLT_MAX, -FLT_MAX⟩
  MouseDrawCursor := false
  MouseCursor := ImGuiMouseCursor_Arrow
  IMGUI_HAS_DOCK := false
  calls := []
  debugLog := []

/-- A widget handle. -/
def widgetA : QObject := ⟨4096, true, false⟩

/-- A window handle. -/
def windowB : QObject := ⟨8192, false, true⟩

/-- A backend on `sampleIo` in which `widgetA` and `windowB` have an empty
queue each. -/
def sampleBackend : ImGuiQtBackend :=
  RegisterObject (RegisterObject (ImGuiQtBackend.new sampleIo) widgetA) windowB

/-- A press of `Key_A` with control and shift held, with text `A`. -/
def sampleKeyPress : QEvent where
  type := .KeyPress
  key := Qt.Key_A
  modifiers := Qt.ControlModifier ||| Qt.ShiftModifier
  text := "A"

/-- The backend `sampleBackend` when `widgetA` owns the pointer and focus, the
UI library reports the mouse at `(10, 20)`, and the last event position was
`(11, 22)`. -/
def sampleOwned : ImGuiQtBackend :=
  { sampleBackend with
    io_ := { sampleIo with MousePos := ⟨10, 20⟩ }
    focusedObject_ := some widgetA
    mouseObject_ := some widgetA
    lastValidMousePosition_ := ⟨11, 22⟩ }

/-- A mouse move to `(1, 2)`. -/
def sampleMove1 : QEvent where
  type := .MouseMove
  position := ⟨1, 2⟩

/-- A mouse move to `(3, 4)`. -/
def sampleMove2 : QEvent where
  type := .MouseMove
  position := ⟨3, 4⟩

/-- Backend data on `sampleBackend` with `widgetA` and `windowB` registered. -/
def sampleData : ImGui_ImplQt_Data where
  backend_ := sampleBackend
  clipboard_ := ""
  registeredObjects_ := [widgetA, windowB]

/-- The backend data after `ImGui_ImplQt_Init` on `sampleIo` and
`ImGui_ImplQt_RegisterWidget` of `widgetA`. -/
def sampleRegistered : ImGui_ImplQt_Data :=
  let io1 := { sampleIo with
    BackendPlatformName := some "imgui_impl_qt"
    BackendFlags := sampleIo.BackendFlags ||| ImGuiBackendFlags_HasMouseCursors }
  let b0 := (ImGuiQtBackend.new io1).Init
  let b1 := { b0 with qt := b0.qt ++ [.setMouseTracking widgetA true] }
  let b2 := RegisterObject b1 widgetA
  { backend_ := { b2 with qt := b2.qt ++ [.installEventFilter widgetA] }
    clipboard_ := ""
    registeredObjects_ := [widgetA] }

/-! ## Key translation -/

/-- In a table without repeated keys, `find` returns the value of every pair
of the table. -/
theorem find_eq_some_of_mem {β : Type} (table : List (Int × β)) (key : Int) (value : β)
    (hnodup : (table.map Prod.fst).Nodup) (hmem : (key, value) ∈ table) :
    find table key = some value := by
  induction table with
  | nil => simp at hmem
  | cons head rest ih =>
    obtain ⟨k, v⟩ := head
    simp only [List.map_cons, List.nodup_cons] at hnodup
    rcases List.mem_cons.mp hmem with heq | hrest
    · have hk : key = k := congrArg Prod.fst heq
      have hv : value = v := congrArg Prod.snd heq
      simp [find, hk, hv]
    · have hne : key ≠ k := by
        intro hk
        apply hnodup.1
        rw [← hk]
        exact List.mem_map_of_mem Prod.fst hrest
      simp [find, hne, ih hnodup.2 hrest]

/-- A key that is the first component of no pair of the table is not found. -/
theorem find_eq_none_of_not_mem {β : Type} (table : List (Int × β)) (key : Int)
    (hkey : key ∉ table.map Prod.fst) : find table key = none := by
  induction table with
  | nil => rfl
  | cons head rest ih =>
    obtain ⟨k, v⟩ := head
    simp only [List.map_cons, List.mem_cons, not_or] at hkey
    simp [find, hkey.1, ih hkey.2]

set_option maxRecDepth 100000 in
/-- No key code occurs twice in the standard table. -/
theorem keyToImGuiKeyMap_nodup : (keyToImGuiKeyMap_.map Prod.fst).Nodup := by
  decide

/-- No key code occurs twice in the numpad table. -/
theorem numpadKeyToImGuiKeyMap_nodup : (numpadKeyToImGuiKeyMap_.map Prod.fst).Nodup := by
  decide

/-- C7: for every pair `(key, value)` of the numpad table and every modifier
set that contains the keypad modifier, whatever its other bits,
`KeyToImGuiKey` returns `value`, also when the standard table has an entry
for `key`. -/
theorem KeyToImGuiKey_numpad (key : Int) (value : ImGuiKey) (modifiers : Nat)
    (hmem : (key, value) ∈ numpadKeyToImGuiKeyMap_)
    (hkeypad : modifiers &&& Qt.KeypadModifier ≠ 0) :
    (KeyToImGuiKey key modifiers).1 = value := by
  have hflag : testFlag modifiers Qt.KeypadModifier = true := by
    simp [testFlag, hkeypad]
  have hfind := find_eq_some_of_mem _ key value numpadKeyToImGuiKeyMap_nodup hmem
  simp [KeyToImGuiKey, hflag, hfind]

/-- C7 at `Key_1`, `Key_Enter` and `Key_Plus`, with the keypad modifier alone
or together with shift and control: the results are `Keypad1`, `KeypadEnter`
and `KeypadAdd`, where the standard table gives `1`, `Enter` and `Equal`. -/
theorem KeyToImGuiKey_numpad_witness :
    (KeyToImGuiKey Qt.Key_1 Qt.KeypadModifier).1 = ImGuiKey_Keypad1
    ∧ (KeyToImGuiKey Qt.Key_Enter (Qt.KeypadModifier ||| Qt.ShiftModifier)).1
        = ImGuiKey_KeypadEnter
    ∧ (KeyToImGuiKey Qt.Key_Plus (Qt.KeypadModifier ||| Qt.ControlModifier)).1
        = ImGuiKey_KeypadAdd
    ∧ find keyToImGuiKeyMap_ Qt.Key_1 = some ImGuiKey_1
    ∧ find keyToImGuiKeyMap_ Qt.Key_Enter = some ImGuiKey_Enter
    ∧ find keyToImGuiKeyMap_ Qt.Key_Plus = some ImGuiKey_Equal :=
  ⟨KeyToImGuiKey_numpad Qt.Key_1 ImGuiKey_Keypad1 Qt.KeypadModifier (by decide) (by decide),
   KeyToImGuiKey_numpad Qt.Key_Enter ImGuiKey_KeypadEnter _ (by decide) (by decide),
   KeyToImGuiKey_numpad Qt.Key_Plus ImGuiKey_KeypadAdd _ (by decide) (by decide),
   by decide, by decide, by decide⟩

/-- C8: for every pair `(key, value)` of the standard table and every
modifier set without the keypad modifier, `KeyToImGuiKey` returns `value`;
and for every key code that is a key of neither table, `KeyToImGuiKey`
returns `ImGuiKey_None` for every modifier set. The function is total. -/
theorem KeyToImGuiKey_standard_and_unmapped :
    (∀ (key : Int) (value : ImGuiKey) (modifiers : Nat),
      (key, value) ∈ keyToImGuiKeyMap_ → modifiers &&& Qt.KeypadModifier = 0 →
      (KeyToImGuiKey key modifiers).1 = value)
    ∧ (∀ (key : Int) (modifiers : Nat),
      key ∉ keyToImGuiKeyMap_.map Prod.fst → key ∉ numpadKeyToImGuiKeyMap_.map Prod.fst →
      (KeyToImGuiKey key modifiers).1 = ImGuiKey_None) := by
  constructor
  · intro key value modifiers hmem hkeypad
    have hflag : testFlag modifiers Qt.KeypadModifier = false := by
      simp [testFlag, hkeypad]
    have hfind := find_eq_some_of_mem _ key value keyToImGuiKeyMap_nodup hmem
    simp [KeyToImGuiKey, hflag, hfind]
  · intro key modifiers hstd hnum
    have h1 := find_eq_none_of_not_mem _ key hstd
    have h2 := find_eq_none_of_not_mem _ key hnum
    cases hflag : testFlag modifiers Qt.KeypadModifier <;>
      simp [KeyToImGuiKey, hflag, h1, h2]

/-- C8 at `Key_A` without modifiers and with shift (standard entry `A`), and
at the unmapped code `Key_Backtab = 0x01000002` and at code 0, with and
without the keypad modifier (result `ImGuiKey_None`). -/
theorem KeyToImGuiKey_standard_and_unmapped_witness :
    (KeyToImGuiKey Qt.Key_A 0).1 = ImGuiKey_A
    ∧ (KeyToImGuiKey Qt.Key_A Qt.ShiftModifier).1 = ImGuiKey_A
    ∧ (KeyToImGuiKey 0x01000002 0).1 = ImGuiKey_None
    ∧ (KeyToImGuiKey 0x01000002 Qt.KeypadModifier).1 = ImGuiKey_None
    ∧ (KeyToImGuiKey 0 Qt.KeypadModifier).1 = ImGuiKey_None :=
  ⟨KeyToImGuiKey_standard_and_unmapped.1 Qt.Key_A ImGuiKey_A 0 (by decide) (by decide),
   KeyToImGuiKey_standard_and_unmapped.1 Qt.Key_A ImGuiKey_A Qt.ShiftModifier
     (by decide) (by decide),
   KeyToImGuiKey_standard_and_unmapped.2 0x01000002 0 (by decide) (by decide),
   KeyToImGuiKey_standard_and_unmapped.2 0x01000002 Qt.KeypadModifier (by decide) (by decide),
   KeyToImGuiKey_standard_and_unmapped.2 0 Qt.KeypadModifier (by decide) (by decide)⟩

/-! ## Floating point -/

/-- An integer is rounded to itself. -/
theorem roundHalfEven_intCast (z : ℤ) : roundHalfEven (z : ℚ) = z := by
  simp [roundHalfEven]

/-- A rational closer than one half to an integer is rounded to it. -/
theorem roundHalfEven_of_abs_sub_lt (x : ℚ) (m : ℤ) (h : |x - m| < 1 / 2) :
    roundHalfEven x = m := by
  have h1 := abs_lt.mp h
  unfold roundHalfEven
  simp only
  by_cases hx : (m : ℚ) ≤ x
  · have hf : ⌊x⌋ = m := by
      rw [Int.floor_eq_iff]
      constructor
      · exact hx
      · linarith [h1.2]
    rw [hf]
    have : x - (m : ℚ) < 1 / 2 := h1.2
    rw [if_pos this]
  · push_neg at hx
    have hf : ⌊x⌋ = m - 1 := by
      rw [Int.floor_eq_iff]
      push_cast
      constructor
      · linarith [h1.1]
      · linarith
    rw [hf]
    push_cast
    have h2 : ¬ (x - ((m : ℚ) - 1) < 1 / 2) := by
      push_neg
      linarith [h1.1]
    have h3 : 1 / 2 < x - ((m : ℚ) - 1) := by linarith [h1.1]
    rw [if_neg h2, if_pos h3]
    omega

/-- The value of `roundNearestEven` at a rational of known binade `e` whose
scaled value is closer than one half to the integer `m`. -/
theorem roundNearestEven_of_bounds (precision : ℕ) (q : ℚ) (e m : ℤ) (hq : q ≠ 0)
    (hlo : (2 : ℚ) ^ e ≤ |q|) (hhi : |q| < (2 : ℚ) ^ (e + 1))
    (hm : |q / 2 ^ (e - ((precision : ℤ) - 1)) - m| < 1 / 2) :
    roundNearestEven precision q = (m : ℚ) * 2 ^ (e - ((precision : ℤ) - 1)) := by
  have hpos : 0 < |q| := abs_pos.mpr hq
  have he : Int.log 2 |q| = e := by
    apply le_antisymm
    · have := (Int.lt_zpow_iff_log_lt (R := ℚ) (b := 2) (by norm_num) hpos).mp (by exact_mod_cast hhi)
      omega
    · exact (Int.zpow_le_iff_le_log (R := ℚ) (b := 2) (by norm_num) hpos).mp (by exact_mod_cast hlo)
  simp only [roundNearestEven, hq, if_false, he]
  rw [roundHalfEven_of_abs_sub_lt _ m hm]

/-- A number `m * 2 ^ k` whose integer `m` fits in `precision` bits is rounded
to itself. -/
theorem roundNearestEven_dyadic (precision : ℕ) (m k : ℤ)
    (hm : |m| < 2 ^ precision) :
    roundNearestEven precision ((m : ℚ) * 2 ^ k) = (m : ℚ) * 2 ^ k := by
  by_cases hm0 : m = 0
  · simp [hm0, roundNearestEven]
  have h2 : (0 : ℚ) < 2 := by norm_num
  have hq : (m : ℚ) * 2 ^ k ≠ 0 := by
    have : (m : ℚ) ≠ 0 := by exact_mod_cast hm0
    exact mul_ne_zero this (zpow_ne_zero _ (by norm_num))
  have hpos : 0 < |(m : ℚ) * 2 ^ k| := abs_pos.mpr hq
  have hlt : |(m : ℚ) * 2 ^ k| < (2 : ℚ) ^ ((precision : ℤ) + k) := by
    rw [abs_mul, abs_of_pos (zpow_pos h2 k), zpow_add₀ (by norm_num : (2 : ℚ) ≠ 0)]
    apply mul_lt_mul_of_pos_right _ (zpow_pos h2 k)
    have : (|m| : ℤ) < 2 ^ precision := hm
    have h3 : ((|m| : ℤ) : ℚ) < ((2 ^ precision : ℤ) : ℚ) := by exact_mod_cast this
    simpa using h3
  have he : Int.log 2 |(m : ℚ) * 2 ^ k| < (precision : ℤ) + k :=
    (Int.lt_zpow_iff_log_lt (R := ℚ) (b := 2) (by norm_num) hpos).mp (by exact_mod_cast hlt)
  simp only [roundNearestEven, hq, if_false]
  set e := Int.log 2 |(m : ℚ) * 2 ^ k| with hedef
  obtain ⟨j, hj⟩ : ∃ j : ℕ, (j : ℤ) = k - (e - ((precision : ℤ) - 1)) :=
    ⟨(k - (e - ((precision : ℤ) - 1))).toNat, Int.toNat_of_nonneg (by omega)⟩
  have hdiv : (m : ℚ) * 2 ^ k / 2 ^ (e - ((precision : ℤ) - 1)) = ((m * 2 ^ j : ℤ) : ℚ) := by
    rw [mul_div_assoc, ← zpow_sub₀ (by norm_num : (2 : ℚ) ≠ 0), ← hj]
    push_cast
    simp
  rw [hdiv, roundHalfEven_intCast, ← hdiv]
  rw [div_mul_cancel₀]
  exact zpow_ne_zero _ (by norm_num)

/-- Only zero is rounded to zero. -/
theorem roundNearestEven_eq_zero_iff (precision : ℕ) (hp : 1 ≤ precision) (q : ℚ) :
    roundNearestEven precision q = 0 ↔ q = 0 := by
  constructor
  · intro h
    by_contra hq
    have hpos : 0 < |q| := abs_pos.mpr hq
    simp only [roundNearestEven, hq, if_false] at h
    set e := Int.log 2 |q| with hedef
    have hulp : (0 : ℚ) < 2 ^ (e - ((precision : ℤ) - 1)) := zpow_pos (by norm_num) _
    have hr : roundHalfEven (q / 2 ^ (e - ((precision : ℤ) - 1))) = 0 := by
      rcases mul_eq_zero.mp h with h0 | h0
      · exact_mod_cast h0
      · exact absurd h0 (ne_of_gt hulp)
    have hlo : (2 : ℚ) ^ e ≤ |q| := by
      have := Int.zpow_log_le_self (R := ℚ) (b := 2) (by norm_num) hpos
      exact_mod_cast this
    have hone : 1 ≤ |q / 2 ^ (e - ((precision : ℤ) - 1))| := by
      rw [abs_div, abs_of_pos hulp, le_div_iff₀ hulp, one_mul]
      calc (2 : ℚ) ^ (e - ((precision : ℤ) - 1)) ≤ 2 ^ e := by
            apply zpow_le_zpow_right₀ (by norm_num)
            omega
        _ ≤ |q| := hlo
    generalize q / 2 ^ (e - ((precision : ℤ) - 1)) = x at hr hone
    unfold roundHalfEven at hr
    simp only at hr
    have hfl := Int.floor_le x
    have hlt := Int.lt_floor_add_one x
    rcases le_abs.mp hone with hx | hx
    · have : (1 : ℤ) ≤ ⌊x⌋ := Int.le_floor.mpr (by exact_mod_cast hx)
      split_ifs at hr <;> omega
    · have hxle : x ≤ -1 := by linarith
      have hfle : ⌊x⌋ ≤ -1 := by
        have : ((⌊x⌋ : ℤ) : ℚ) ≤ ((-1 : ℤ) : ℚ) := by
          push_cast
          exact le_trans hfl hxle
        exact_mod_cast this
      split_ifs at hr with h1 h2 h3
      · omega
      · have hf : ⌊x⌋ = -1 := by omega
        rw [hf] at h2
        push_cast at h2
        linarith
      · omega
      · have hf : ⌊x⌋ = -1 := by omega
        rw [hf] at h1
        push_cast at h1
        linarith
  · intro h
    simp [roundNearestEven, h]

/-- Rounding to an integer moves a rational by at most one half. -/
theorem roundHalfEven_abs_sub_le (x : ℚ) : |(roundHalfEven x : ℚ) - x| ≤ 1 / 2 := by
  have hfl := Int.floor_le x
  have hlt := Int.lt_floor_add_one x
  unfold roundHalfEven
  simp only
  split_ifs with h1 h2 h3
  · rw [abs_le]; constructor <;> linarith
  · rw [abs_le]; push_cast; constructor <;> linarith
  · rw [abs_le]; constructor <;> linarith
  · rw [abs_le]; push_cast; constructor <;> linarith

/-- Rounding to `precision` bits has relative error at most `2 ^ (-precision)`. -/
theorem roundNearestEven_abs_sub_le (precision : ℕ) (q : ℚ) :
    |roundNearestEven precision q - q| ≤ |q| / 2 ^ precision := by
  by_cases hq : q = 0
  · simp [roundNearestEven, hq]
  have hpos : 0 < |q| := abs_pos.mpr hq
  simp only [roundNearestEven, hq, if_false]
  set e := Int.log 2 |q| with hedef
  have hne : (2 : ℚ) ≠ 0 := by norm_num
  have hulp : (0 : ℚ) < 2 ^ (e - ((precision : ℤ) - 1)) := zpow_pos (by norm_num) _
  have hlo : (2 : ℚ) ^ e ≤ |q| := by
    have := Int.zpow_log_le_self (R := ℚ) (b := 2) (by norm_num) hpos
    exact_mod_cast this
  have hround := roundHalfEven_abs_sub_le (q / 2 ^ (e - ((precision : ℤ) - 1)))
  have heq : (roundHalfEven (q / 2 ^ (e - ((precision : ℤ) - 1))) : ℚ)
        * 2 ^ (e - ((precision : ℤ) - 1)) - q
      = ((roundHalfEven (q / 2 ^ (e - ((precision : ℤ) - 1))) : ℚ)
          - q / 2 ^ (e - ((precision : ℤ) - 1))) * 2 ^ (e - ((precision : ℤ) - 1)) := by
    rw [sub_mul, div_mul_cancel₀ _ (ne_of_gt hulp)]
  rw [heq, abs_mul, abs_of_pos hulp]
  have hsplit : (2 : ℚ) ^ (e - ((precision : ℤ) - 1)) = 2 ^ e / 2 ^ precision * 2 := by
    rw [zpow_sub₀ hne, zpow_sub₀ hne, zpow_natCast, zpow_one]
    field_simp
  have hpp : (0 : ℚ) < 2 ^ precision := pow_pos (by norm_num) _
  calc |(roundHalfEven (q / 2 ^ (e - ((precision : ℤ) - 1))) : ℚ)
          - q / 2 ^ (e - ((precision : ℤ) - 1))| * 2 ^ (e - ((precision : ℤ) - 1))
      ≤ 1 / 2 * 2 ^ (e - ((precision : ℤ) - 1)) :=
        mul_le_mul_of_nonneg_right hround (le_of_lt hulp)
    _ = 2 ^ e / 2 ^ precision := by rw [hsplit]; ring
    _ ≤ |q| / 2 ^ precision := div_le_div_of_nonneg_right hlo (le_of_lt hpp)

/-- The eighth of a 32-bit integer is a `double`: the division by 8 is exact. -/
theorem roundToDouble_div_8 (a : ℤ) (ha : |a| ≤ 2 ^ 31) :
    roundToDouble ((a : ℚ) / 8) = (a : ℚ) / 8 := by
  have h := roundNearestEven_dyadic 53 a (-3) (by
    calc |a| ≤ 2 ^ 31 := ha
      _ < 2 ^ 53 := by norm_num)
  have h8 : (a : ℚ) * 2 ^ (-3 : ℤ) = (a : ℚ) / 8 := by
    rw [zpow_neg, div_eq_mul_inv]
    norm_num
  rw [h8] at h
  exact h

/-- For an angle delta coordinate `120 * k` with `|k| < 2 ^ 24` the wheel step
is exactly `k`. -/
theorem wheelStep_whole (a k : ℤ) (ha : a = 120 * k) (hk : |k| < 2 ^ 24) :
    static_cast_float (roundToDouble ((a : ℚ) / 8 / 15)) = (k : ℚ) := by
  have hq : (a : ℚ) / 8 / 15 = (k : ℚ) := by
    rw [ha]
    push_cast
    ring
  have h53 := roundNearestEven_dyadic 53 k 0 (by
    calc |k| < 2 ^ 24 := hk
      _ < 2 ^ 53 := by norm_num)
  have h24 := roundNearestEven_dyadic 24 k 0 hk
  simp only [zpow_zero, mul_one] at h53 h24
  rw [hq, roundToDouble, h53, static_cast_float, h24]

/-- The wheel step of an angle delta coordinate `a` is `a / 120` up to a
relative error of `2 ^ (-23)`. -/
theorem wheelStep_error (a : ℤ) :
    |static_cast_float (roundToDouble ((a : ℚ) / 8 / 15)) - (a : ℚ) / 120|
      ≤ |(a : ℚ) / 120| / 2 ^ 23 := by
  have hq : (a : ℚ) / 8 / 15 = (a : ℚ) / 120 := by ring
  rw [hq]
  set q := (a : ℚ) / 120
  set d := roundToDouble q with hd
  have h1 : |d - q| ≤ |q| / 2 ^ 53 := roundNearestEven_abs_sub_le 53 q
  have h2 : |static_cast_float d - d| ≤ |d| / 2 ^ 24 := roundNearestEven_abs_sub_le 24 d
  have hdabs : |d| ≤ |q| + |q| / 2 ^ 53 := by
    calc |d| = |(d - q) + q| := by ring_nf
      _ ≤ |d - q| + |q| := abs_add _ _
      _ ≤ |q| / 2 ^ 53 + |q| := by linarith
      _ = |q| + |q| / 2 ^ 53 := by ring
  have hq0 : 0 ≤ |q| := abs_nonneg q
  calc |static_cast_float d - q| = |(static_cast_float d - d) + (d - q)| := by ring_nf
    _ ≤ |static_cast_float d - d| + |d - q| := abs_add _ _
    _ ≤ |d| / 2 ^ 24 + |q| / 2 ^ 53 := by linarith
    _ ≤ (|q| + |q| / 2 ^ 53) / 2 ^ 24 + |q| / 2 ^ 53 := by
        have := div_le_div_of_nonneg_right hdabs (by positivity : (0 : ℚ) ≤ 2 ^ 24)
        linarith
    _ ≤ |q| / 2 ^ 23 := by
        have : (|q| + |q| / 2 ^ 53) / 2 ^ 24 + |q| / 2 ^ 53 = |q| * (1 / 2 ^ 24 + 1 / 2 ^ 77 + 1 / 2 ^ 53) := by
          ring
        have hright : |q| / 2 ^ 23 = |q| * (1 / 2 ^ 23) := by ring
        rw [this, hright]
        apply mul_le_mul_of_nonneg_left _ hq0
        norm_num

/-- The wheel step of the angle delta coordinate 1: the `float` nearest to the
`double` nearest to `1 / 120`. -/
theorem wheelStep_1 :
    static_cast_float (roundToDouble (((1 : ℤ) : ℚ) / 8 / 15)) = 8947849 / 2 ^ 30 := by
  have hd : roundToDouble (((1 : ℤ) : ℚ) / 8 / 15) = 4803839602528529 / 2 ^ 59 := by
    have h := roundNearestEven_of_bounds 53 (((1 : ℤ) : ℚ) / 8 / 15) (-7) 4803839602528529
      (by norm_num) (by norm_num [abs_of_pos]) (by norm_num [abs_of_pos])
      (by norm_num [abs_lt])
    rw [roundToDouble, h]
    norm_num
  rw [hd]
  have h := roundNearestEven_of_bounds 24 ((4803839602528529 : ℚ) / 2 ^ 59) (-7) 8947849
      (by norm_num) (by norm_num [abs_of_pos]) (by norm_num [abs_of_pos])
      (by norm_num [abs_lt])
  rw [static_cast_float, h]
  norm_num

/-- The wheel step of the angle delta coordinate -7. -/
theorem wheelStep_neg7 :
    static_cast_float (roundToDouble (((-7 : ℤ) : ℚ) / 8 / 15)) = -15658735 / 2 ^ 28 := by
  have hq : ((-7 : ℤ) : ℚ) / 8 / 15 = -(7 / 120) := by norm_num
  have habs : |(-(7 / 120) : ℚ)| = 7 / 120 := by rw [abs_neg, abs_of_pos (by norm_num)]
  have hd : roundToDouble (-(7 / 120)) = -(4203359652212463 / 2 ^ 56) := by
    have h := roundNearestEven_of_bounds 53 (-(7 / 120)) (-5) (-8406719304424926)
      (by norm_num) (by rw [habs]; norm_num) (by rw [habs]; norm_num)
      (by rw [abs_lt]; norm_num)
    rw [roundToDouble, h]
    norm_num
  rw [hq, hd]
  have habs2 : |(-(4203359652212463 / 2 ^ 56) : ℚ)| = 4203359652212463 / 2 ^ 56 := by
    rw [abs_neg, abs_of_pos (by norm_num)]
  have h := roundNearestEven_of_bounds 24 (-(4203359652212463 / 2 ^ 56)) (-5) (-15658735)
      (by norm_num) (by rw [habs2]; norm_num) (by rw [habs2]; norm_num)
      (by rw [abs_lt]; norm_num)
  rw [static_cast_float, h]
  norm_num

/-! ## Event handlers -/

/-- On a watched object that has a queue, `push_back` returns, and changes the
backend only in that queue, which gets the action at its back. -/
theorem push_back_of_queue (b : ImGuiQtBackend) (watched : QObject) (action : Action)
    (queue : List Action) (hqueue : b.eventQueue_ watched = some queue) :
    push_back b watched action = .ok { b with
      eventQueue_ := Function.update b.eventQueue_ watched (some (queue ++ [action])) } := by
  simp [push_back, hqueue]

/-- Invoking an action appends its calls to the trace of the UI library. -/
theorem Action.invoke_calls (io : ImGuiIO) (action : Action) :
    (action.invoke io).calls = io.calls ++ action.calls := by
  unfold Action.invoke
  generalize action.calls = cs
  induction cs generalizing io with
  | nil => simp
  | cons c rest ih => simp [List.foldl_cons, ih, ImGuiIO.call]

/-- The degrees of a non-null angle delta are non-null. -/
theorem numDegrees_isNull (angleDelta : QPoint) (hangle : angleDelta.isNull = false) :
    ((QPointF.ofQPoint angleDelta).div 8).isNull = false := by
  simp only [QPoint.isNull, Bool.and_eq_false_iff, beq_eq_false_iff_ne] at hangle
  simp only [QPointF.isNull, QPointF.div, QPointF.ofQPoint, Bool.and_eq_false_iff,
    beq_eq_false_iff_ne]
  rcases hangle with h | h
  · left
    intro h0
    apply h
    have : (angleDelta.x : ℚ) = 0 := by
      rcases div_eq_zero_iff.mp
        ((roundNearestEven_eq_zero_iff 53 (by norm_num) _).mp h0) with h1 | h1
      · exact h1
      · norm_num at h1
    exact_mod_cast this
  · right
    intro h0
    apply h
    have : (angleDelta.y : ℚ) = 0 := by
      rcases div_eq_zero_iff.mp
        ((roundNearestEven_eq_zero_iff 53 (by norm_num) _).mp h0) with h1 | h1
      · exact h1
      · norm_num at h1
    exact_mod_cast this

/-- The calls of the action that captures the degrees of an angle delta with
32-bit coordinates `(ax, ay)`: one `AddMouseWheelEvent`, whose arguments are
the quotients `ax / 8 / 15` and `ay / 8 / 15`, each rounded to `double` and
then narrowed to `float`. -/
theorem HandleWheelDegrees_calls (angleDelta : QPoint)
    (hx : |angleDelta.x| ≤ 2 ^ 31) (hy : |angleDelta.y| ≤ 2 ^ 31) :
    (Action.HandleWheelDegrees ((QPointF.ofQPoint angleDelta).div 8)).calls =
      [IoCall.AddMouseWheelEvent
        (static_cast_float (roundToDouble ((angleDelta.x : ℚ) / 8 / 15)))
        (static_cast_float (roundToDouble ((angleDelta.y : ℚ) / 8 / 15)))] := by
  simp only [Action.calls, QPointF.div, QPointF.ofQPoint, roundToDouble_div_8 _ hx,
    roundToDouble_div_8 _ hy]

/-- `HandleWheel` on an event with null pixel delta and non-null angle delta,
for a watched object that has a queue. -/
theorem HandleWheel_of_angleDelta (b : ImGuiQtBackend) (watched : QObject) (event : QEvent)
    (queue : List Action) (hqueue : b.eventQueue_ watched = some queue)
    (hpixel : event.pixelDelta.isNull = true)
    (hangle : event.angleDelta.isNull = false) :
    HandleWheel b watched event = .ok { b with
      mouseObject_ := some watched
      eventQueue_ := Function.update b.eventQueue_ watched (some (queue ++
        [Action.HandleWheelDegrees ((QPointF.ofQPoint event.angleDelta).div 8)])) } := by
  have hdeg := numDegrees_isNull event.angleDelta hangle
  simp [HandleWheel, hpixel, hdeg, push_back, hqueue]

/-- `HandleWheel` on an event with non-null pixel delta, for a watched object
that has a queue. -/
theorem HandleWheel_of_pixelDelta (b : ImGuiQtBackend) (watched : QObject) (event : QEvent)
    (queue : List Action) (hqueue : b.eventQueue_ watched = some queue)
    (hpixel : event.pixelDelta.isNull = false) :
    HandleWheel b watched event = .ok { b with
      mouseObject_ := some watched
      eventQueue_ := Function.update b.eventQueue_ watched (some (queue ++
        [Action.HandleWheelPixels event.pixelDelta])) } := by
  simp [HandleWheel, hpixel, push_back, hqueue]

/-- C4, as the code has it: for a wheel event with null pixel delta and
non-null angle delta `(ax, ay)` (32-bit coordinates), on a watched object that
has a queue, `HandleWheel` returns and appends exactly one action to that
queue; invoking that action makes the single call `AddMouseWheelEvent` whose
arguments are `ax / 8 / 15` and `ay / 8 / 15`, each rounded to `double` and
then to `float`. The angle delta is divided by 8 (eighths of a degree to
degrees) and then by 15: each step is `ax / 120` (`ay / 120`) up to a
relative error of `2 ^ (-23)`, and is exactly the whole number `k` when the
coordinate is `120 * k` with `|k| < 2 ^ 24`. -/
theorem HandleWheel_angleDelta (b : ImGuiQtBackend) (watched : QObject) (event : QEvent)
    (queue : List Action) (hqueue : b.eventQueue_ watched = some queue)
    (hpixel : event.pixelDelta.isNull = true)
    (hangle : event.angleDelta.isNull = false)
    (hx : |event.angleDelta.x| ≤ 2 ^ 31) (hy : |event.angleDelta.y| ≤ 2 ^ 31) :
    ∃ (b' : ImGuiQtBackend) (action : Action),
      HandleWheel b watched event = .ok b'
      ∧ b'.eventQueue_ watched = some (queue ++ [action])
      ∧ action.calls = [IoCall.AddMouseWheelEvent
          (static_cast_float (roundToDouble ((event.angleDelta.x : ℚ) / 8 / 15)))
          (static_cast_float (roundToDouble ((event.angleDelta.y : ℚ) / 8 / 15)))]
      ∧ |static_cast_float (roundToDouble ((event.angleDelta.x : ℚ) / 8 / 15))
            - (event.angleDelta.x : ℚ) / 120| ≤ |(event.angleDelta.x : ℚ) / 120| / 2 ^ 23
      ∧ |static_cast_float (roundToDouble ((event.angleDelta.y : ℚ) / 8 / 15))
            - (event.angleDelta.y : ℚ) / 120| ≤ |(event.angleDelta.y : ℚ) / 120| / 2 ^ 23
      ∧ (∀ k : ℤ, event.angleDelta.x = 120 * k → |k| < 2 ^ 24 →
          static_cast_float (roundToDouble ((event.angleDelta.x : ℚ) / 8 / 15)) = (k : ℚ))
      ∧ (∀ k : ℤ, event.angleDelta.y = 120 * k → |k| < 2 ^ 24 →
          static_cast_float (roundToDouble ((event.angleDelta.y : ℚ) / 8 / 15)) = (k : ℚ)) := by
  refine ⟨_, Action.HandleWheelDegrees ((QPointF.ofQPoint event.angleDelta).div 8),
    HandleWheel_of_angleDelta b watched event queue hqueue hpixel hangle, ?_,
    HandleWheelDegrees_calls event.angleDelta hx hy,
    wheelStep_error event.angleDelta.x, wheelStep_error event.angleDelta.y,
    fun k hk hlt => wheelStep_whole event.angleDelta.x k hk hlt,
    fun k hk hlt => wheelStep_whole event.angleDelta.y k hk hlt⟩
  simp

/-- C4, amended, on the empty queue of `widgetA`, at the angle delta `(120, 0)`
of one notch, where the call is `AddMouseWheelEvent 1 0`, and at the angle
delta `(1, -7)`, where the steps are the floats `8947849 / 2 ^ 30` and
`-15658735 / 2 ^ 28` nearest to `1 / 120` and `-7 / 120`. -/
theorem HandleWheel_angleDelta_witness :
    (∃ (b' : ImGuiQtBackend) (action : Action),
      HandleWheel sampleBackend widgetA { type := .Wheel, angleDelta := ⟨120, 0⟩ } = .ok b'
      ∧ b'.eventQueue_ widgetA = some ([] ++ [action])
      ∧ action.calls = [IoCall.AddMouseWheelEvent
          (static_cast_float (roundToDouble (((120 : ℤ) : ℚ) / 8 / 15)))
          (static_cast_float (roundToDouble (((0 : ℤ) : ℚ) / 8 / 15)))]
      ∧ |static_cast_float (roundToDouble (((120 : ℤ) : ℚ) / 8 / 15))
            - ((120 : ℤ) : ℚ) / 120| ≤ |((120 : ℤ) : ℚ) / 120| / 2 ^ 23
      ∧ |static_cast_float (roundToDouble (((0 : ℤ) : ℚ) / 8 / 15))
            - ((0 : ℤ) : ℚ) / 120| ≤ |((0 : ℤ) : ℚ) / 120| / 2 ^ 23
      ∧ (∀ k : ℤ, (120 : ℤ) = 120 * k → |k| < 2 ^ 24 →
          static_cast_float (roundToDouble (((120 : ℤ) : ℚ) / 8 / 15)) = (k : ℚ))
      ∧ (∀ k : ℤ, (0 : ℤ) = 120 * k → |k| < 2 ^ 24 →
          static_cast_float (roundToDouble (((0 : ℤ) : ℚ) / 8 / 15)) = (k : ℚ)))
    ∧ static_cast_float (roundToDouble (((120 : ℤ) : ℚ) / 8 / 15)) = 1
    ∧ static_cast_float (roundToDouble (((0 : ℤ) : ℚ) / 8 / 15)) = 0
    ∧ (∃ (b' : ImGuiQtBackend) (action : Action),
      HandleWheel sampleBackend widgetA { type := .Wheel, angleDelta := ⟨1, -7⟩ } = .ok b'
      ∧ b'.eventQueue_ widgetA = some ([] ++ [action])
      ∧ action.calls = [IoCall.AddMouseWheelEvent
          (static_cast_float (roundToDouble (((1 : ℤ) : ℚ) / 8 / 15)))
          (static_cast_float (roundToDouble (((-7 : ℤ) : ℚ) / 8 / 15)))]
      ∧ |static_cast_float (roundToDouble (((1 : ℤ) : ℚ) / 8 / 15))
            - ((1 : ℤ) : ℚ) / 120| ≤ |((1 : ℤ) : ℚ) / 120| / 2 ^ 23
      ∧ |static_cast_float (roundToDouble (((-7 : ℤ) : ℚ) / 8 / 15))
            - ((-7 : ℤ) : ℚ) / 120| ≤ |((-7 : ℤ) : ℚ) / 120| / 2 ^ 23
      ∧ (∀ k : ℤ, (1 : ℤ) = 120 * k → |k| < 2 ^ 24 →
          static_cast_float (roundToDouble (((1 : ℤ) : ℚ) / 8 / 15)) = (k : ℚ))
      ∧ (∀ k : ℤ, (-7 : ℤ) = 120 * k → |k| < 2 ^ 24 →
          static_cast_float (roundToDouble (((-7 : ℤ) : ℚ) / 8 / 15)) = (k : ℚ)))
    ∧ static_cast_float (roundToDouble (((1 : ℤ) : ℚ) / 8 / 15)) = 8947849 / 2 ^ 30
    ∧ static_cast_float (roundToDouble (((-7 : ℤ) : ℚ) / 8 / 15)) = -15658735 / 2 ^ 28 :=
  ⟨HandleWheel_angleDelta sampleBackend widgetA { type := .Wheel, angleDelta := ⟨120, 0⟩ } []
    (by rfl) (by rfl) (by rfl) (by decide) (by decide),
   by simpa using wheelStep_whole 120 1 (by norm_num) (by norm_num),
   by simpa using wheelStep_whole 0 0 (by norm_num) (by norm_num),
   HandleWheel_angleDelta sampleBackend widgetA { type := .Wheel, angleDelta := ⟨1, -7⟩ } []
    (by rfl) (by rfl) (by rfl) (by decide) (by decide),
   wheelStep_1, wheelStep_neg7⟩

/-- C4 as stated fails at the angle delta `(120, 0)`: the one action
`HandleWheel` queues calls `AddMouseWheelEvent 1 0`, which is not the call
`AddMouseWheelEvent 8 0` with steps `(120/15, 0/15)`. -/
theorem HandleWheel_angleDelta_120_not_8 :
    (∃ b' : ImGuiQtBackend,
      HandleWheel sampleBackend widgetA { type := .Wheel, angleDelta := ⟨120, 0⟩ } = .ok b'
      ∧ (b'.eventQueue_ widgetA).map (List.map Action.calls)
          = some [[IoCall.AddMouseWheelEvent 1 0]])
    ∧ IoCall.AddMouseWheelEvent 1 0
        ≠ IoCall.AddMouseWheelEvent ((120 : ℚ) / 15) ((0 : ℚ) / 15) := by
  constructor
  · refine ⟨_, HandleWheel_of_angleDelta sampleBackend widgetA
      { type := .Wheel, angleDelta := ⟨120, 0⟩ } [] rfl rfl rfl, ?_⟩
    have hcalls := HandleWheelDegrees_calls ⟨120, 0⟩ (by decide) (by decide)
    have h1 : static_cast_float (roundToDouble (((120 : ℤ) : ℚ) / 8 / 15)) = 1 := by
      simpa using wheelStep_whole 120 1 (by norm_num) (by norm_num)
    have h0 : static_cast_float (roundToDouble (((0 : ℤ) : ℚ) / 8 / 15)) = 0 := by
      simpa using wheelStep_whole 0 0 (by norm_num) (by norm_num)
    rw [h1, h0] at hcalls
    simp only [Function.update_same, List.nil_append, Option.map_some', List.map_cons,
      List.map_nil]
    rw [hcalls]
  · intro h
    injection h with h1 h2
    norm_num at h1

/-- C5: for a wheel event with non-null pixel delta `(px, py)`, whatever its
angle delta, on a watched object that has a queue, `HandleWheel` returns and
appends exactly one action to that queue: the one that captures the pixel
delta unchanged, whose single call is `AddMouseWheelEvent px py`. -/
theorem HandleWheel_pixelDelta (b : ImGuiQtBackend) (watched : QObject) (event : QEvent)
    (queue : List Action) (hqueue : b.eventQueue_ watched = some queue)
    (hpixel : event.pixelDelta.isNull = false) :
    ∃ b' : ImGuiQtBackend,
      HandleWheel b watched event = .ok b'
      ∧ b'.eventQueue_ watched = some (queue ++ [Action.HandleWheelPixels event.pixelDelta])
      ∧ (Action.HandleWheelPixels event.pixelDelta).calls
          = [IoCall.AddMouseWheelEvent (event.pixelDelta.x : ℚ) (event.pixelDelta.y : ℚ)] := by
  refine ⟨_, HandleWheel_of_pixelDelta b watched event queue hqueue hpixel, ?_, ?_⟩
  · simp
  · simp [Action.calls]

/-- C5 at the pixel delta `(3, -5)` with the non-null angle delta `(120, 0)`,
on the empty queue of `widgetA`: the queued action carries `(3, -5)`. -/
theorem HandleWheel_pixelDelta_witness :
    ∃ b' : ImGuiQtBackend,
      HandleWheel sampleBackend widgetA
        { type := .Wheel, pixelDelta := ⟨3, -5⟩, angleDelta := ⟨120, 0⟩ } = .ok b'
      ∧ b'.eventQueue_ widgetA = some ([] ++ [Action.HandleWheelPixels ⟨3, -5⟩])
      ∧ (Action.HandleWheelPixels ⟨3, -5⟩).calls
          = [IoCall.AddMouseWheelEvent (((3 : Int)) : ℚ) (((-5 : Int)) : ℚ)] :=
  HandleWheel_pixelDelta sampleBackend widgetA
    { type := .Wheel, pixelDelta := ⟨3, -5⟩, angleDelta := ⟨120, 0⟩ } [] (by rfl) (by rfl)

/-- `HandleKeyPress` for a watched object that has a queue. -/
theorem HandleKeyPress_of_queue (b : ImGuiQtBackend) (watched : QObject) (event : QEvent)
    (queue : List Action) (hqueue : b.eventQueue_ watched = some queue) :
    ∃ b' : ImGuiQtBackend,
      HandleKeyPress b watched event = .ok b'
      ∧ b'.eventQueue_ = Function.update b.eventQueue_ watched (some (queue ++
          [Action.UpdateKeyModifiers event.modifiers,
           Action.HandleKeyPress (KeyToImGuiKey event.key event.modifiers).1
             event.type event.text]))
      ∧ b'.keyboardObject_ = some watched
      ∧ b'.focusedObject_ = b.focusedObject_
      ∧ b'.mouseObject_ = b.mouseObject_
      ∧ b'.lastValidMousePosition_ = b.lastValidMousePosition_
      ∧ b'.io_.calls = b.io_.calls ++
          [IoCall.SetKeyEventNativeData (KeyToImGuiKey event.key event.modifiers).1
            event.nativeVirtualKey event.nativeScanCode] := by
  cases hdebug : b.debugEnabled_ <;>
    simp [HandleKeyPress, UpdateKeyModifiers, push_back, hqueue, hdebug, ImGuiIO.call,
      ImGuiIO.DebugLog]

/-- Testing a flag that is the power `2 ^ i` reads bit `i`. -/
theorem testFlag_two_pow (flags i : Nat) : testFlag flags (2 ^ i) = flags.testBit i := by
  unfold testFlag
  rw [Nat.and_two_pow]
  cases flags.testBit i <;> simp

/-- The calls of the modifier-state action read bits 26 (control), 25 (shift),
27 (alt) and 28 (meta) of the captured modifier set. -/
theorem UpdateKeyModifiers_calls (modifiers : Nat) :
    (Action.UpdateKeyModifiers modifiers).calls =
      [IoCall.AddKeyEvent ImGuiMod_Ctrl (modifiers.testBit 26),
       IoCall.AddKeyEvent ImGuiMod_Shift (modifiers.testBit 25),
       IoCall.AddKeyEvent ImGuiMod_Alt (modifiers.testBit 27),
       IoCall.AddKeyEvent ImGuiMod_Super (modifiers.testBit 28)] := by
  have hc : Qt.ControlModifier = 2 ^ 26 := by decide
  have hs : Qt.ShiftModifier = 2 ^ 25 := by decide
  have ha : Qt.AltModifier = 2 ^ 27 := by decide
  have hm : Qt.MetaModifier = 2 ^ 28 := by decide
  simp only [Action.calls, hc, hs, ha, hm, testFlag_two_pow]

/-- C6: for a key press or release event on a watched object that has a
queue, `HandleKeyPress` returns and appends exactly two actions to that
queue, the modifier-state action first and the key action second. Invoking
the modifier action reports `ImGuiMod_Ctrl`, `ImGuiMod_Shift`, `ImGuiMod_Alt`
and `ImGuiMod_Super` as down exactly when the event's modifier set has the
bit of `ControlModifier`, `ShiftModifier`, `AltModifier` and `MetaModifier`;
the first call of the key action is `AddKeyEvent (KeyToImGuiKey key
modifiers) down` with `down` true exactly for a key press. -/
theorem HandleKeyPress_enqueues (b : ImGuiQtBackend) (watched : QObject) (event : QEvent)
    (queue : List Action) (hqueue : b.eventQueue_ watched = some queue)
    (htype : event.type = QEventType.KeyPress ∨ event.type = QEventType.KeyRelease) :
    ∃ b' : ImGuiQtBackend,
      HandleKeyPress b watched event = .ok b'
      ∧ b'.eventQueue_ watched = some (queue ++
          [Action.UpdateKeyModifiers event.modifiers,
           Action.HandleKeyPress (KeyToImGuiKey event.key event.modifiers).1
             event.type event.text])
      ∧ (Action.UpdateKeyModifiers event.modifiers).calls =
          [IoCall.AddKeyEvent ImGuiMod_Ctrl (event.modifiers.testBit 26),
           IoCall.AddKeyEvent ImGuiMod_Shift (event.modifiers.testBit 25),
           IoCall.AddKeyEvent ImGuiMod_Alt (event.modifiers.testBit 27),
           IoCall.AddKeyEvent ImGuiMod_Super (event.modifiers.testBit 28)]
      ∧ Qt.ControlModifier = 2 ^ 26 ∧ Qt.ShiftModifier = 2 ^ 25
      ∧ Qt.AltModifier = 2 ^ 27 ∧ Qt.MetaModifier = 2 ^ 28
      ∧ (Action.HandleKeyPress (KeyToImGuiKey event.key event.modifiers).1
            event.type event.text).calls.head?
          = some (IoCall.AddKeyEvent (KeyToImGuiKey event.key event.modifiers).1
              (decide (event.type = QEventType.KeyPress))) := by
  obtain ⟨b', hrun, hq, -⟩ := HandleKeyPress_of_queue b watched event queue hqueue
  refine ⟨b', hrun, ?_, UpdateKeyModifiers_calls _, by decide, by decide, by decide,
    by decide, ?_⟩
  · simp [hq]
  · rcases htype with h | h <;> simp [Action.calls, h]

/-- C6 at a press of `Key_A` with control and shift held, on the empty queue
of `widgetA`: the queue becomes the modifier action followed by the key
action for `ImGuiKey_A`. -/
theorem HandleKeyPress_enqueues_witness :
    (∃ b' : ImGuiQtBackend,
      HandleKeyPress sampleBackend widgetA sampleKeyPress = .ok b'
      ∧ b'.eventQueue_ widgetA = some ([] ++
          [Action.UpdateKeyModifiers sampleKeyPress.modifiers,
           Action.HandleKeyPress
             (KeyToImGuiKey sampleKeyPress.key sampleKeyPress.modifiers).1
             sampleKeyPress.type sampleKeyPress.text])
      ∧ (Action.UpdateKeyModifiers sampleKeyPress.modifiers).calls =
          [IoCall.AddKeyEvent ImGuiMod_Ctrl (sampleKeyPress.modifiers.testBit 26),
           IoCall.AddKeyEvent ImGuiMod_Shift (sampleKeyPress.modifiers.testBit 25),
           IoCall.AddKeyEvent ImGuiMod_Alt (sampleKeyPress.modifiers.testBit 27),
           IoCall.AddKeyEvent ImGuiMod_Super (sampleKeyPress.modifiers.testBit 28)]
      ∧ Qt.ControlModifier = 2 ^ 26 ∧ Qt.ShiftModifier = 2 ^ 25
      ∧ Qt.AltModifier = 2 ^ 27 ∧ Qt.MetaModifier = 2 ^ 28
      ∧ (Action.HandleKeyPress
            (KeyToImGuiKey sampleKeyPress.key sampleKeyPress.modifiers).1
            sampleKeyPress.type sampleKeyPress.text).calls.head?
          = some (IoCall.AddKeyEvent
              (KeyToImGuiKey sampleKeyPress.key sampleKeyPress.modifiers).1
              (decide (sampleKeyPress.type = QEventType.KeyPress))))
    ∧ (KeyToImGuiKey sampleKeyPress.key sampleKeyPress.modifiers).1 = ImGuiKey_A
    ∧ sampleKeyPress.modifiers.testBit 26 = true
    ∧ sampleKeyPress.modifiers.testBit 25 = true
    ∧ sampleKeyPress.modifiers.testBit 27 = false
    ∧ sampleKeyPress.modifiers.testBit 28 = false :=
  ⟨HandleKeyPress_enqueues sampleBackend widgetA sampleKeyPress [] (by rfl) (Or.inl rfl),
   by decide, by decide, by decide, by decide, by decide⟩

/-- C9: when the focus owner is `A`, a focus-out event for a different object
`B` makes `HandleFocus` return the backend unchanged; through `eventFilter`
no queue changes (no action is enqueued on any queue), the focus owner is
still `A`, and the UI library is untouched. -/
theorem HandleFocus_stale_focus_out (b : ImGuiQtBackend) (A B : QObject) (event : QEvent)
    (hAB : A ≠ B) (hfocus : b.focusedObject_ = some A)
    (htype : event.type = QEventType.FocusOut) :
    HandleFocus b B event = .ok b
    ∧ ∃ b' : ImGuiQtBackend,
        eventFilter b B event = .ok (false, b')
        ∧ b'.eventQueue_ = b.eventQueue_
        ∧ b'.focusedObject_ = some A
        ∧ b'.io_ = b.io_ := by
  have hne : b.focusedObject_ ≠ some B := by
    rw [hfocus]
    intro h
    exact hAB (Option.some.inj h)
  have hrun : HandleFocus b B event = .ok b := by
    simp [HandleFocus, htype, hne]
  refine ⟨hrun, ?_⟩
  cases hw : B.isWidgetType <;>
    simp [eventFilter, htype, hrun, Except.map, hw, hfocus]

/-- C9 at `A = widgetA` holding focus and a focus-out event for
`B = windowB`, both with a queue. -/
theorem HandleFocus_stale_focus_out_witness :
    HandleFocus sampleOwned windowB { type := .FocusOut } = .ok sampleOwned
    ∧ ∃ b' : ImGuiQtBackend,
        eventFilter sampleOwned windowB { type := .FocusOut } = .ok (false, b')
        ∧ b'.eventQueue_ = sampleOwned.eventQueue_
        ∧ b'.focusedObject_ = some widgetA
        ∧ b'.io_ = sampleOwned.io_ :=
  HandleFocus_stale_focus_out sampleOwned widgetA windowB { type := .FocusOut }
    (by decide) (by rfl) (by rfl)

/-- C10: when the watched object `s` has a queue and owns the pointer, a
leave event for `s` makes `HandleLeave` return; afterwards no object owns
the pointer, `lastValidMousePosition_` is the mouse position `io_.MousePos`
of the UI library, and the queue of `s` has exactly one more action, whose
single call is `AddMousePosEvent (-FLT_MAX) (-FLT_MAX)`. -/
theorem HandleLeave_owner (b : ImGuiQtBackend) (s : QObject) (event : QEvent)
    (queue : List Action) (hqueue : b.eventQueue_ s = some queue)
    (hown : b.mouseObject_ = some s) :
    ∃ b' : ImGuiQtBackend,
      HandleLeave b s event = .ok b'
      ∧ b'.mouseObject_ = none
      ∧ b'.lastValidMousePosition_ = b.io_.MousePos
      ∧ b'.eventQueue_ s = some (queue ++ [Action.HandleLeave])
      ∧ Action.HandleLeave.calls = [IoCall.AddMousePosEvent (-FLT_MAX) (-FLT_MAX)] := by
  have hrun : HandleLeave b s event = .ok { b with
      mouseObject_ := none
      lastValidMousePosition_ := b.io_.MousePos
      eventQueue_ := Function.update b.eventQueue_ s (some (queue ++ [Action.HandleLeave])) } := by
    simp [HandleLeave, hown, push_back, hqueue]
  refine ⟨_, hrun, rfl, rfl, ?_, rfl⟩
  simp

/-- C10 at `widgetA` owning the pointer, with the UI library reporting the
mouse at `(10, 20)` and the last event position `(11, 22)`: after the leave
event `lastValidMousePosition_` is `(10, 20)`. -/
theorem HandleLeave_owner_witness :
    (∃ b' : ImGuiQtBackend,
      HandleLeave sampleOwned widgetA { type := .Leave } = .ok b'
      ∧ b'.mouseObject_ = none
      ∧ b'.lastValidMousePosition_ = sampleOwned.io_.MousePos
      ∧ b'.eventQueue_ widgetA = some ([] ++ [Action.HandleLeave])
      ∧ Action.HandleLeave.calls = [IoCall.AddMousePosEvent (-FLT_MAX) (-FLT_MAX)])
    ∧ sampleOwned.io_.MousePos = ⟨10, 20⟩
    ∧ sampleOwned.lastValidMousePosition_ = ⟨11, 22⟩ :=
  ⟨HandleLeave_owner sampleOwned widgetA { type := .Leave } [] (by rfl) (by rfl), rfl, rfl⟩

/-! ## Enqueue and drain -/

/-- For a watched object that has a queue, `eventFilter` returns `false` and
leaves every queue as it was, except that the queue of the watched object has
the actions `enqueuedActions` at its back. -/
theorem eventFilter_of_queue (b : ImGuiQtBackend) (watched : QObject) (event : QEvent)
    (queue : List Action) (hqueue : b.eventQueue_ watched = some queue) :
    ∃ b' : ImGuiQtBackend,
      eventFilter b watched event = .ok (false, b')
      ∧ b'.eventQueue_ = Function.update b.eventQueue_ watched
          (some (queue ++ enqueuedActions b event watched)) := by
  have hself : b.eventQueue_ = Function.update b.eventQueue_ watched (some queue) := by
    rw [← hqueue]
    exact (Function.update_eq_self watched b.eventQueue_).symm
  cases htype : event.type
  case Enter =>
    cases hw : watched.isWidgetType <;>
      simp [eventFilter, htype, HandleEnter, push_back, hqueue, Except.map, hw, enqueuedActions]
  case Leave =>
    cases hw : watched.isWidgetType <;> by_cases hm : b.mouseObject_ = some watched <;>
      simp [eventFilter, htype, HandleLeave, push_back, hqueue, Except.map, hw, hm,
        enqueuedActions]
  case FocusIn =>
    cases hw : watched.isWidgetType <;>
      simp [eventFilter, htype, HandleFocus, push_back, hqueue, Except.map, hw, enqueuedActions]
  case FocusOut =>
    cases hw : watched.isWidgetType <;> by_cases hf : b.focusedObject_ = some watched <;>
      simp [eventFilter, htype, HandleFocus, push_back, hqueue, Except.map, hw, hf,
        enqueuedActions, ← hself]
  case KeyPress =>
    cases hw : watched.isWidgetType <;> cases hd : b.debugEnabled_ <;>
      simp [eventFilter, htype, HandleKeyPress, UpdateKeyModifiers, push_back, hqueue,
        Except.map, hw, hd, enqueuedActions]
  case KeyRelease =>
    cases hw : watched.isWidgetType <;> cases hd : b.debugEnabled_ <;>
      simp [eventFilter, htype, HandleKeyPress, UpdateKeyModifiers, push_back, hqueue,
        Except.map, hw, hd, enqueuedActions]
  case MouseButtonPress =>
    cases hw : watched.isWidgetType <;>
      by_cases hb : ButtonToImGuiMouseButton event.button = -1 <;>
      simp [eventFilter, htype, HandleMouseButtonPress, push_back, hqueue, Except.map, hw, hb,
        enqueuedActions, ← hself]
  case MouseButtonRelease =>
    cases hw : watched.isWidgetType <;>
      by_cases hb : ButtonToImGuiMouseButton event.button = -1 <;>
      simp [eventFilter, htype, HandleMouseButtonPress, push_back, hqueue, Except.map, hw, hb,
        enqueuedActions, ← hself]
  case MouseMove =>
    cases hw : watched.isWidgetType <;>
      simp [eventFilter, htype, HandleMouseMove, push_back, hqueue, Except.map, hw,
        enqueuedActions]
  case Wheel =>
    cases hw : watched.isWidgetType <;> cases hp : event.pixelDelta.isNull <;>
      cases hn : ((QPointF.ofQPoint event.angleDelta).div 8).isNull <;>
      simp [eventFilter, htype, HandleWheel, push_back, hqueue, Except.map, hw, hp, hn,
        enqueuedActions, ← hself]
  case Other =>
    simp [eventFilter, htype, enqueuedActions, ← hself]

/-- For a watched object that has a queue, delivering a list of events
returns, and the queue of the watched object is its previous contents followed
by the actions pushed for the events, in delivery order. -/
theorem eventFilterAll_of_queue (events : List QEvent) (b : ImGuiQtBackend)
    (watched : QObject) (queue : List Action) (hqueue : b.eventQueue_ watched = some queue) :
    ∃ b' : ImGuiQtBackend,
      eventFilterAll b watched events = .ok b'
      ∧ b'.eventQueue_ = Function.update b.eventQueue_ watched
          (some (queue ++ enqueuedActionsAll b watched events)) := by
  induction events generalizing b queue with
  | nil =>
    refine ⟨b, rfl, ?_⟩
    simp only [enqueuedActionsAll, List.append_nil, ← hqueue]
    exact (Function.update_eq_self watched b.eventQueue_).symm
  | cons event rest ih =>
    obtain ⟨b1, hrun, hq1⟩ := eventFilter_of_queue b watched event queue hqueue
    have hqueue1 : b1.eventQueue_ watched = some (queue ++ enqueuedActions b event watched) := by
      simp [hq1]
    obtain ⟨b2, hrest, hq2⟩ := ih b1 _ hqueue1
    refine ⟨b2, ?_, ?_⟩
    · simp [eventFilterAll, hrun, hrest]
    · simp [enqueuedActionsAll, hrun, hq2, hq1, List.append_assoc]

/-- The loop of `NewFrame` makes the calls of the queued actions, front to
back, and changes nothing else of the UI library. -/
theorem processEvents_calls (queue : List Action) (io : ImGuiIO) :
    (processEvents queue io).calls = io.calls ++ queue.flatMap Action.calls := by
  induction queue generalizing io with
  | nil => simp [processEvents]
  | cons front rest ih =>
    simp [processEvents, ih, Action.invoke_calls, List.append_assoc]

/-- `UpdateMouseCursor` changes neither the queues nor the UI library. -/
theorem UpdateMouseCursor_frame (b : ImGuiQtBackend) (registeredObjects_ : List QObject) :
    (UpdateMouseCursor b registeredObjects_).eventQueue_ = b.eventQueue_
    ∧ (UpdateMouseCursor b registeredObjects_).io_ = b.io_ := by
  unfold UpdateMouseCursor
  split <;> exact ⟨rfl, rfl⟩

/-- For an object that has a queue, `NewFrame` returns; the queue of the
object is then empty, the other queues are as before, and the trace of the UI
library has grown by the calls of the queued actions, front to back. -/
theorem NewFrame_of_queue (b : ImGuiQtBackend) (registeredObjects_ : List QObject)
    (object : QObject) (widgetSize : QSize) (currentTime : Int) (queue : List Action)
    (hqueue : b.eventQueue_ object = some queue) :
    ∃ b' : ImGuiQtBackend,
      NewFrame b registeredObjects_ object widgetSize currentTime = .ok b'
      ∧ b'.eventQueue_ = Function.update b.eventQueue_ object (some [])
      ∧ b'.io_.calls = b.io_.calls ++ queue.flatMap Action.calls := by
  unfold NewFrame
  simp only [UpdateMonitors, UpdateMouseData, ite_self, hqueue]
  refine ⟨_, rfl, ?_, ?_⟩
  · rw [(UpdateMouseCursor_frame _ _).1]
    split <;> rfl
  · rw [(UpdateMouseCursor_frame _ _).2]
    simp only [processEvents_calls]
    split <;> rfl

/-- C3: for every list of events delivered to one object that has a queue,
every delivery returns and the queue is its previous contents followed by the
actions pushed for the events in delivery order; `NewFrame` on that object
then returns, makes the calls of exactly these queued actions, each once,
front to back, and leaves the queue of the object empty. -/
theorem NewFrame_drains_in_order (b : ImGuiQtBackend) (s : QObject) (events : List QEvent)
    (queue : List Action) (registeredObjects_ : List QObject) (widgetSize : QSize)
    (currentTime : Int) (hqueue : b.eventQueue_ s = some queue) :
    ∃ b1 : ImGuiQtBackend,
      eventFilterAll b s events = .ok b1
      ∧ b1.eventQueue_ s = some (queue ++ enqueuedActionsAll b s events)
      ∧ ∃ b2 : ImGuiQtBackend,
          NewFrame b1 registeredObjects_ s widgetSize currentTime = .ok b2
          ∧ b2.io_.calls = b1.io_.calls
              ++ (queue ++ enqueuedActionsAll b s events).flatMap Action.calls
          ∧ b2.eventQueue_ s = some [] := by
  obtain ⟨b1, hrun, hq1⟩ := eventFilterAll_of_queue events b s queue hqueue
  have hqueue1 : b1.eventQueue_ s = some (queue ++ enqueuedActionsAll b s events) := by
    simp [hq1]
  obtain ⟨b2, hframe, hq2, hcalls⟩ :=
    NewFrame_of_queue b1 registeredObjects_ s widgetSize currentTime _ hqueue1
  exact ⟨b1, hrun, hqueue1, b2, hframe, hcalls, by simp [hq2]⟩

/-- C3 at a mouse move, a key press and a second mouse move delivered to
`widgetA`, starting from its empty queue: four actions are queued in that
order, and `NewFrame` makes their calls in that order. -/
theorem NewFrame_drains_in_order_witness :
    (∃ b1 : ImGuiQtBackend,
      eventFilterAll sampleBackend widgetA [sampleMove1, sampleKeyPress, sampleMove2] = .ok b1
      ∧ b1.eventQueue_ widgetA = some ([] ++
          enqueuedActionsAll sampleBackend widgetA [sampleMove1, sampleKeyPress, sampleMove2])
      ∧ ∃ b2 : ImGuiQtBackend,
          NewFrame b1 [widgetA, windowB] widgetA ⟨640, 480⟩ 1000 = .ok b2
          ∧ b2.io_.calls = b1.io_.calls
              ++ ([] ++ enqueuedActionsAll sampleBackend widgetA
                    [sampleMove1, sampleKeyPress, sampleMove2]).flatMap Action.calls
          ∧ b2.eventQueue_ widgetA = some [])
    ∧ enqueuedActionsAll sampleBackend widgetA [sampleMove1, sampleKeyPress, sampleMove2]
        = [Action.HandleMouseMove ⟨1, 2⟩,
           Action.UpdateKeyModifiers (Qt.ControlModifier ||| Qt.ShiftModifier),
           Action.HandleKeyPress ImGuiKey_A .KeyPress "A",
           Action.HandleMouseMove ⟨3, 4⟩] :=
  ⟨NewFrame_drains_in_order sampleBackend widgetA [sampleMove1, sampleKeyPress, sampleMove2]
    [] [widgetA, windowB] ⟨640, 480⟩ 1000 (by rfl), by rfl⟩

/-! ## Registration -/

/-- `ImGui_ImplQt_UnregisterObject` on an initialised backend returns data
whose event queues are exactly those before the call. -/
theorem ImGui_ImplQt_UnregisterObject_eventQueue (bd : ImGui_ImplQt_Data) (object : QObject) :
    ∃ bd' : ImGui_ImplQt_Data,
      ImGui_ImplQt_UnregisterObject (some bd) object = some bd'
      ∧ bd'.backend_.eventQueue_ = bd.backend_.eventQueue_
      ∧ bd'.registeredObjects_ = bd.registeredObjects_.erase object :=
  ⟨_, rfl, rfl, rfl⟩

/-- `RegisterObject` keeps the queue of an object that already has one. -/
theorem RegisterObject_of_queue (b : ImGuiQtBackend) (object : QObject) (queue : List Action)
    (hqueue : b.eventQueue_ object = some queue) : RegisterObject b object = b := by
  simp [RegisterObject, hqueue]

/-- After `RegisterObject` the object has a queue, and every object that had a
queue has the same queue. -/
theorem RegisterObject_isSome (b : ImGuiQtBackend) (object o : QObject) :
    ((RegisterObject b object).eventQueue_ object).isSome = true
    ∧ ((b.eventQueue_ o).isSome = true →
        ((RegisterObject b object).eventQueue_ o).isSome = true) := by
  unfold RegisterObject
  cases h : b.eventQueue_ object with
  | some q => simp [h]
  | none =>
    refine ⟨by simp, ?_⟩
    intro ho
    by_cases hoo : o = object
    · subst hoo
      simp
    · simpa [Function.update_noteq hoo] using ho

/-- Delivering an event to an object that has a queue returns; the registry
is as before and the queue of the object has the pushed actions at its back. -/
theorem deliverEvent_of_queue (bd : ImGui_ImplQt_Data) (watched : QObject) (event : QEvent)
    (queue : List Action) (hqueue : bd.backend_.eventQueue_ watched = some queue) :
    ∃ bd' : ImGui_ImplQt_Data,
      deliverEvent (some bd) watched event = .ok (some bd')
      ∧ (∃ r, eventFilter bd.backend_ watched event = .ok r ∧ bd'.backend_ = r.2)
      ∧ bd'.registeredObjects_ = bd.registeredObjects_
      ∧ bd'.backend_.eventQueue_ = Function.update bd.backend_.eventQueue_ watched
          (some (queue ++ enqueuedActions bd.backend_ event watched)) := by
  obtain ⟨b', hrun, hq⟩ := eventFilter_of_queue bd.backend_ watched event queue hqueue
  refine ⟨{ bd with backend_ := b' }, ?_, ⟨_, hrun, rfl⟩, rfl, hq⟩
  simp [deliverEvent, hrun]

/-- C1, as the code has it: for an object `s` that has a queue (as every
registered object has), after two events are delivered to `s`, then `s` is
unregistered and registered again, the queue of `s` is still its previous
contents followed by the actions pushed for the two events; it is not empty
when the first event pushes an action; and the next `NewFrame` for `s` makes
the calls of these actions, front to back. Unregistration leaves
`eventQueue_` as it is, and `eventQueue_[object]` keeps a queue that
exists. -/
theorem unregister_register_keeps_queue (bd : ImGui_ImplQt_Data) (s : QObject)
    (event1 event2 : QEvent) (queue : List Action) (widgetSize : QSize) (currentTime : Int)
    (hqueue : bd.backend_.eventQueue_ s = some queue) :
    ∃ bd1 bd2 bd3 bd4 : ImGui_ImplQt_Data,
      runCalls (some bd) [.deliver s event1, .deliver s event2] = .ok (some bd1)
      ∧ ImGui_ImplQt_UnregisterObject (some bd1) s = some bd2
      ∧ ImGui_ImplQt_RegisterObject (some bd2) s = .ok (some bd3)
      ∧ bd3.backend_.eventQueue_ s
          = some (queue ++ enqueuedActionsAll bd.backend_ s [event1, event2])
      ∧ (enqueuedActions bd.backend_ event1 s ≠ [] → bd3.backend_.eventQueue_ s ≠ some [])
      ∧ ImGui_ImplQt_NewFrame (some bd3) s widgetSize currentTime = .ok (some bd4)
      ∧ bd4.backend_.io_.calls = bd3.backend_.io_.calls
          ++ (queue ++ enqueuedActionsAll bd.backend_ s [event1, event2]).flatMap Action.calls := by
  obtain ⟨d1, hd1, ⟨r1, hr1, hb1⟩, -, hq1⟩ := deliverEvent_of_queue bd s event1 queue hqueue
  have hqueue1 : d1.backend_.eventQueue_ s
      = some (queue ++ enqueuedActions bd.backend_ event1 s) := by
    simp [hq1]
  obtain ⟨d2, hd2, -, -, hq2⟩ := deliverEvent_of_queue d1 s event2 _ hqueue1
  have hall : enqueuedActionsAll bd.backend_ s [event1, event2]
      = enqueuedActions bd.backend_ event1 s ++ enqueuedActions d1.backend_ event2 s := by
    simp [enqueuedActionsAll, hr1, hb1]
    cases eventFilter r1.2 s event2 <;> rfl
  have hqueue2 : d2.backend_.eventQueue_ s
      = some (queue ++ enqueuedActionsAll bd.backend_ s [event1, event2]) := by
    simp [hq2, hall, List.append_assoc]
  obtain ⟨d3, hd3, hq3, -⟩ := ImGui_ImplQt_UnregisterObject_eventQueue d2 s
  have hqueue3 : d3.backend_.eventQueue_ s
      = some (queue ++ enqueuedActionsAll bd.backend_ s [event1, event2]) := by
    rw [hq3, hqueue2]
  have hreg : ImGui_ImplQt_RegisterObject (some d3) s = .ok (some { d3 with
      backend_ := { d3.backend_ with qt := d3.backend_.qt ++ [.installEventFilter s] }
      registeredObjects_ := d3.registeredObjects_ ++ [s] }) := by
    simp [ImGui_ImplQt_RegisterObject, RegisterObject_of_queue d3.backend_ s _ hqueue3]
  obtain ⟨b4, hb4, -, hcalls⟩ := NewFrame_of_queue
    { d3.backend_ with qt := d3.backend_.qt ++ [.installEventFilter s] }
    (d3.registeredObjects_ ++ [s]) s widgetSize currentTime _ hqueue3
  refine ⟨d2, d3, _, { d3 with
      backend_ := b4
      registeredObjects_ := d3.registeredObjects_ ++ [s] },
    ?_, hd3, hreg, hqueue3, ?_, ?_, hcalls⟩
  · simp [runCalls, Call.run, hd1, hd2]
  · intro hne hempty
    rw [hqueue3] at hempty
    simp [enqueuedActionsAll, hne] at hempty
  · simp [ImGui_ImplQt_NewFrame, hb4]

/-- A call of `eventFilter` that returns leaves the set of objects that have a
queue as it was. -/
theorem eventFilter_isSome (b : ImGuiQtBackend) (watched : QObject) (event : QEvent)
    (r : Bool × ImGuiQtBackend) (hrun : eventFilter b watched event = .ok r) (o : QObject) :
    (r.2.eventQueue_ o).isSome = (b.eventQueue_ o).isSome := by
  cases hqueue : b.eventQueue_ watched with
  | some queue =>
    obtain ⟨b', hrun', hq⟩ := eventFilter_of_queue b watched event queue hqueue
    rw [hrun'] at hrun
    cases hrun
    by_cases ho : o = watched
    · subst ho
      simp [hq, hqueue]
    · simp [hq, Function.update_noteq ho]
  | none =>
    cases htype : event.type
    case Enter =>
      simp [eventFilter, htype, HandleEnter, push_back, hqueue, Except.map] at hrun
    case Leave =>
      by_cases hm : b.mouseObject_ = some watched <;>
        simp [eventFilter, htype, HandleLeave, push_back, hqueue, Except.map, hm] at hrun
    case FocusIn =>
      simp [eventFilter, htype, HandleFocus, push_back, hqueue, Except.map] at hrun
    case FocusOut =>
      by_cases hf : b.focusedObject_ = some watched
      · simp [eventFilter, htype, HandleFocus, push_back, hqueue, Except.map, hf] at hrun
      · cases hw : watched.isWidgetType <;>
          simp [eventFilter, htype, HandleFocus, Except.map, hf, hw] at hrun <;>
          simp [← hrun]
    case KeyPress =>
      cases hd : b.debugEnabled_ <;>
        simp [eventFilter, htype, HandleKeyPress, UpdateKeyModifiers, push_back, hqueue,
          Except.map, hd] at hrun
    case KeyRelease =>
      cases hd : b.debugEnabled_ <;>
        simp [eventFilter, htype, HandleKeyPress, UpdateKeyModifiers, push_back, hqueue,
          Except.map, hd] at hrun
    case MouseButtonPress =>
      by_cases hb : ButtonToImGuiMouseButton event.button = -1
      · cases hw : watched.isWidgetType <;>
          simp [eventFilter, htype, HandleMouseButtonPress, Except.map, hb, hw] at hrun <;>
          simp [← hrun]
      · simp [eventFilter, htype, HandleMouseButtonPress, push_back, hqueue, Except.map,
          hb] at hrun
    case MouseButtonRelease =>
      by_cases hb : ButtonToImGuiMouseButton event.button = -1
      · cases hw : watched.isWidgetType <;>
          simp [eventFilter, htype, HandleMouseButtonPress, Except.map, hb, hw] at hrun <;>
          simp [← hrun]
      · simp [eventFilter, htype, HandleMouseButtonPress, push_back, hqueue, Except.map,
          hb] at hrun
    case MouseMove =>
      simp [eventFilter, htype, HandleMouseMove, push_back, hqueue, Except.map] at hrun
    case Wheel =>
      cases hp : event.pixelDelta.isNull <;>
        cases hn : ((QPointF.ofQPoint event.angleDelta).div 8).isNull <;>
        cases hw : watched.isWidgetType <;>
        simp [eventFilter, htype, HandleWheel, push_back, hqueue, Except.map, hp, hn,
          hw] at hrun <;>
        simp [← hrun]
    case Other =>
      simp [eventFilter, htype] at hrun
      simp [← hrun]

/-- A call of `NewFrame` that returns leaves the set of objects that have a
queue as it was. -/
theorem NewFrame_isSome (b : ImGuiQtBackend) (registeredObjects_ : List QObject)
    (object : QObject) (widgetSize : QSize) (currentTime : Int) (b' : ImGuiQtBackend)
    (hrun : NewFrame b registeredObjects_ object widgetSize currentTime = .ok b')
    (o : QObject) : (b'.eventQueue_ o).isSome = (b.eventQueue_ o).isSome := by
  cases hqueue : b.eventQueue_ object with
  | none =>
    simp [NewFrame, UpdateMonitors, hqueue] at hrun
  | some queue =>
    obtain ⟨b2, hrun2, hq, -⟩ :=
      NewFrame_of_queue b registeredObjects_ object widgetSize currentTime queue hqueue
    rw [hrun2] at hrun
    cases hrun
    by_cases ho : o = object
    · subst ho
      simp [hq, hqueue]
    · simp [hq, Function.update_noteq ho]

/-- Registration keeps the property that every registered object has a
queue. -/
theorem ImGui_ImplQt_RegisterObject_invariant (bd bd' : Option ImGui_ImplQt_Data)
    (object : QObject) (hinv : RegisteredHaveQueue bd)
    (hrun : ImGui_ImplQt_RegisterObject bd object = .ok bd') : RegisteredHaveQueue bd' := by
  cases bd with
  | none => simp [ImGui_ImplQt_RegisterObject] at hrun
  | some d =>
    simp only [ImGui_ImplQt_RegisterObject, Except.ok.injEq] at hrun
    subst hrun
    intro d' hd' o ho
    cases hd'
    simp only [List.mem_append, List.mem_singleton] at ho
    rcases ho with ho | ho
    · exact (RegisterObject_isSome d.backend_ object o).2 (hinv d rfl o ho)
    · rw [ho]
      exact (RegisterObject_isSome d.backend_ object object).1

/-- Every step keeps the property that every registered object has a queue. -/
theorem Call_run_invariant (bd bd' : Option ImGui_ImplQt_Data) (c : Call)
    (hinv : RegisteredHaveQueue bd) (hrun : c.run bd = .ok bd') : RegisteredHaveQueue bd' := by
  cases c with
  | RegisterWidget widget =>
    refine ImGui_ImplQt_RegisterObject_invariant _ bd' widget ?_ hrun
    intro d hd o ho
    cases bd with
    | none => simp at hd
    | some d0 =>
      simp only [Option.map_some', Option.some.injEq] at hd
      subst hd
      exact hinv d0 rfl o ho
  | RegisterWindow window =>
    exact ImGui_ImplQt_RegisterObject_invariant bd bd' window hinv hrun
  | UnregisterWidget widget =>
    cases bd with
    | none =>
      simp [Call.run, ImGui_ImplQt_UnregisterWidget, ImGui_ImplQt_UnregisterObject] at hrun
      subst hrun
      intro d hd
      simp at hd
    | some d0 =>
      simp only [Call.run, ImGui_ImplQt_UnregisterWidget, ImGui_ImplQt_UnregisterObject,
        Except.ok.injEq] at hrun
      subst hrun
      intro d hd o ho
      cases hd
      exact hinv d0 rfl o (List.mem_of_mem_erase ho)
  | UnregisterWindow window =>
    cases bd with
    | none =>
      simp [Call.run, ImGui_ImplQt_UnregisterWindow, ImGui_ImplQt_UnregisterObject] at hrun
      subst hrun
      intro d hd
      simp at hd
    | some d0 =>
      simp only [Call.run, ImGui_ImplQt_UnregisterWindow, ImGui_ImplQt_UnregisterObject,
        Except.ok.injEq] at hrun
      subst hrun
      intro d hd o ho
      cases hd
      exact hinv d0 rfl o (List.mem_of_mem_erase ho)
  | deliver watched event =>
    cases bd with
    | none =>
      simp [Call.run, deliverEvent] at hrun
      subst hrun
      intro d hd
      simp at hd
    | some d0 =>
      simp only [Call.run, deliverEvent] at hrun
      cases hf : eventFilter d0.backend_ watched event with
      | error e => simp [hf] at hrun
      | ok r =>
        simp only [hf, Except.ok.injEq] at hrun
        subst hrun
        intro d hd o ho
        cases hd
        have := eventFilter_isSome d0.backend_ watched event r hf o
        simp only [this]
        exact hinv d0 rfl o ho
  | NewFrame object widgetSize currentTime =>
    cases bd with
    | none => simp [Call.run, ImGui_ImplQt_NewFrame] at hrun
    | some d0 =>
      simp only [Call.run, ImGui_ImplQt_NewFrame] at hrun
      cases hf : NewFrame d0.backend_ d0.registeredObjects_ object widgetSize currentTime with
      | error e => simp [hf] at hrun
      | ok b' =>
        simp only [hf, Except.ok.injEq] at hrun
        subst hrun
        intro d hd o ho
        cases hd
        have := NewFrame_isSome d0.backend_ d0.registeredObjects_ object widgetSize
          currentTime b' hf o
        simp only [this]
        exact hinv d0 rfl o ho

/-- Every run of steps keeps the property that every registered object has a
queue. -/
theorem runCalls_invariant (calls : List Call) (bd bd' : Option ImGui_ImplQt_Data)
    (hinv : RegisteredHaveQueue bd) (hrun : runCalls bd calls = .ok bd') :
    RegisteredHaveQueue bd' := by
  induction calls generalizing bd with
  | nil =>
    simp only [runCalls, Except.ok.injEq] at hrun
    subst hrun
    exact hinv
  | cons c rest ih =>
    simp only [runCalls] at hrun
    cases hc : c.run bd with
    | error e => simp [hc] at hrun
    | ok bd1 =>
      simp only [hc] at hrun
      exact ih bd1 (Call_run_invariant bd bd1 c hinv hc) hrun

/-- The half of the registry invariant that the code keeps: in every state
reached from `ImGui_ImplQt_Init`, every element of `registeredObjects_` is a
key of `eventQueue_`. -/
theorem Reachable_registered_has_queue (bd : ImGui_ImplQt_Data) (hreach : Reachable bd)
    (o : QObject) (ho : o ∈ bd.registeredObjects_) :
    (bd.backend_.eventQueue_ o).isSome = true := by
  obtain ⟨io, clipboardText, calls, hrun⟩ := hreach
  simp only [runFromInit, ImGui_ImplQt_Init] at hrun
  refine runCalls_invariant calls _ (some bd) ?_ hrun bd rfl o ho
  intro d hd o ho
  cases hd
  simp at ho

/-- Running two lists of steps one after the other is running their
concatenation. -/
theorem runCalls_append (calls1 calls2 : List Call) (bd bd1 : Option ImGui_ImplQt_Data)
    (hrun : runCalls bd calls1 = .ok bd1) :
    runCalls bd (calls1 ++ calls2) = runCalls bd1 calls2 := by
  induction calls1 generalizing bd with
  | nil =>
    simp only [runCalls, Except.ok.injEq] at hrun
    subst hrun
    rfl
  | cons c rest ih =>
    simp only [runCalls] at hrun
    cases hc : c.run bd with
    | error e => simp [hc] at hrun
    | ok bd2 =>
      simp only [hc] at hrun
      simp only [List.cons_append, runCalls, hc]
      exact ih bd2 hrun

/-- C1, amended, at `widgetA` with two mouse moves, starting from its empty
queue: after unregistration and registration the queue holds the two
mouse-position actions. -/
theorem unregister_register_keeps_queue_witness :
    (∃ bd1 bd2 bd3 bd4 : ImGui_ImplQt_Data,
      runCalls (some sampleData) [.deliver widgetA sampleMove1, .deliver widgetA sampleMove2]
        = .ok (some bd1)
      ∧ ImGui_ImplQt_UnregisterObject (some bd1) widgetA = some bd2
      ∧ ImGui_ImplQt_RegisterObject (some bd2) widgetA = .ok (some bd3)
      ∧ bd3.backend_.eventQueue_ widgetA
          = some ([] ++ enqueuedActionsAll sampleData.backend_ widgetA [sampleMove1, sampleMove2])
      ∧ (enqueuedActions sampleData.backend_ sampleMove1 widgetA ≠ [] →
          bd3.backend_.eventQueue_ widgetA ≠ some [])
      ∧ ImGui_ImplQt_NewFrame (some bd3) widgetA ⟨640, 480⟩ 1000 = .ok (some bd4)
      ∧ bd4.backend_.io_.calls = bd3.backend_.io_.calls
          ++ ([] ++ enqueuedActionsAll sampleData.backend_ widgetA
                [sampleMove1, sampleMove2]).flatMap Action.calls)
    ∧ enqueuedActionsAll sampleData.backend_ widgetA [sampleMove1, sampleMove2]
        = [Action.HandleMouseMove ⟨1, 2⟩, Action.HandleMouseMove ⟨3, 4⟩] :=
  ⟨unregister_register_keeps_queue sampleData widgetA sampleMove1 sampleMove2 []
    ⟨640, 480⟩ 1000 (by rfl), by rfl⟩

/-- C1 as stated fails: after `ImGui_ImplQt_Init`, registration of `widgetA`,
two mouse moves delivered to it, its unregistration and its second
registration, the queue of `widgetA` is not empty but holds the two actions,
and the next `NewFrame` for `widgetA` makes their two calls. -/
theorem unregister_does_not_empty_queue :
    ∃ bd : ImGui_ImplQt_Data,
      runFromInit sampleIo "" [.RegisterWidget widgetA, .deliver widgetA sampleMove1,
        .deliver widgetA sampleMove2, .UnregisterWidget widgetA, .RegisterWidget widgetA]
        = .ok (some bd)
      ∧ bd.backend_.eventQueue_ widgetA
          = some [Action.HandleMouseMove ⟨1, 2⟩, Action.HandleMouseMove ⟨3, 4⟩]
      ∧ bd.backend_.eventQueue_ widgetA ≠ some []
      ∧ ∃ bd2 : ImGui_ImplQt_Data,
          ImGui_ImplQt_NewFrame (some bd) widgetA ⟨640, 480⟩ 1000 = .ok (some bd2)
          ∧ bd2.backend_.io_.calls
              = [IoCall.AddMousePosEvent 1 2, IoCall.AddMousePosEvent 3 4]
          ∧ bd2.backend_.io_.calls ≠ [] := by
  refine ⟨_, rfl, rfl, ?_, _, rfl, rfl, ?_⟩
  · intro h
    have h2 : (some [Action.HandleMouseMove ⟨1, 2⟩, Action.HandleMouseMove ⟨3, 4⟩] :
        Option (List Action)) = some [] := h
    simp at h2
  · intro h
    have h2 : [IoCall.AddMousePosEvent 1 2, IoCall.AddMousePosEvent 3 4] = [] := h
    simp at h2

/-- C2, as the code has it: in every state reached from `ImGui_ImplQt_Init` by
registrations, unregistrations, delivered events and `NewFrame` calls, every
element of `registeredObjects_` is a key of `eventQueue_`; and unregistering
any object leads to a reachable state with the same `eventQueue_`, the object
being removed once from `registeredObjects_` only. -/
theorem registered_objects_have_queue (bd : ImGui_ImplQt_Data) (hreach : Reachable bd) :
    (∀ o ∈ bd.registeredObjects_, (bd.backend_.eventQueue_ o).isSome = true)
    ∧ ∀ o : QObject, ∃ bd' : ImGui_ImplQt_Data,
        ImGui_ImplQt_UnregisterObject (some bd) o = some bd'
        ∧ Reachable bd'
        ∧ bd'.backend_.eventQueue_ = bd.backend_.eventQueue_
        ∧ bd'.registeredObjects_ = bd.registeredObjects_.erase o := by
  refine ⟨fun o ho => Reachable_registered_has_queue bd hreach o ho, ?_⟩
  intro o
  obtain ⟨bd', hrun, hq, hregs⟩ := ImGui_ImplQt_UnregisterObject_eventQueue bd o
  refine ⟨bd', hrun, ?_, hq, hregs⟩
  obtain ⟨io, clipboardText, calls, hreach⟩ := hreach
  refine ⟨io, clipboardText, calls ++ [.UnregisterWindow o], ?_⟩
  simp only [runFromInit] at hreach ⊢
  cases hinit : ImGui_ImplQt_Init io none clipboardText with
  | error e => simp [hinit] at hreach
  | ok bd0 =>
    simp only [hinit] at hreach ⊢
    rw [runCalls_append calls _ bd0 (some bd) hreach]
    simp [runCalls, Call.run, ImGui_ImplQt_UnregisterWindow, hrun]

/-- C2, amended, at the state after `ImGui_ImplQt_Init` and the registration
of `widgetA`: `widgetA` is registered and has a queue, and unregistering it
keeps that queue. -/
theorem registered_objects_have_queue_witness :
    Reachable sampleRegistered
    ∧ (∀ o ∈ sampleRegistered.registeredObjects_,
        (sampleRegistered.backend_.eventQueue_ o).isSome = true)
    ∧ ∀ o : QObject, ∃ bd' : ImGui_ImplQt_Data,
        ImGui_ImplQt_UnregisterObject (some sampleRegistered) o = some bd'
        ∧ Reachable bd'
        ∧ bd'.backend_.eventQueue_ = sampleRegistered.backend_.eventQueue_
        ∧ bd'.registeredObjects_ = sampleRegistered.registeredObjects_.erase o :=
  ⟨⟨sampleIo, "", [.RegisterWidget widgetA], rfl⟩,
   registered_objects_have_queue sampleRegistered ⟨sampleIo, "", [.RegisterWidget widgetA], rfl⟩⟩

/-- C2 as stated fails: the state after `ImGui_ImplQt_Init`, registration of
`widgetA` and its unregistration is reachable, and in it `widgetA` is a key
of `eventQueue_` although it is not an element of `registeredObjects_`. -/
theorem queue_of_unregistered_object :
    ∃ bd : ImGui_ImplQt_Data,
      runFromInit sampleIo "" [.RegisterWidget widgetA, .UnregisterWidget widgetA]
        = .ok (some bd)
      ∧ Reachable bd
      ∧ bd.backend_.eventQueue_ widgetA = some []
      ∧ bd.registeredObjects_ = []
      ∧ ¬ ((bd.backend_.eventQueue_ widgetA).isSome = true ↔ widgetA ∈ bd.registeredObjects_) := by
  refine ⟨_, rfl, ⟨sampleIo, "", [.RegisterWidget widgetA, .UnregisterWidget widgetA], rfl⟩,
    rfl, rfl, ?_⟩
  intro h
  have hmem := h.mp rfl
  exact absurd hmem (List.not_mem_nil _)

/-! ## Cursor translation -/

/-- C12: `ImGuiCursorToCursorShape` returns a shape for every cursor value;
for every value that is a key of no entry of `imGuiCursorMap_` the shape is
`ArrowCursor`; and `ImGuiMouseCursor_None` is such a value. -/
theorem ImGuiCursorToCursorShape_default :
    (∀ cursor : Int, ∃ shape : CursorShape, ImGuiCursorToCursorShape cursor = shape)
    ∧ (∀ cursor : Int, cursor ∉ imGuiCursorMap_.map Prod.fst →
        ImGuiCursorToCursorShape cursor = CursorShape.ArrowCursor)
    ∧ ImGuiMouseCursor_None ∉ imGuiCursorMap_.map Prod.fst
    ∧ ImGuiCursorToCursorShape ImGuiMouseCursor_None = CursorShape.ArrowCursor := by
  refine ⟨fun cursor => ⟨_, rfl⟩, ?_, by decide, by decide⟩
  intro cursor hcursor
  simp [ImGuiCursorToCursorShape, find_eq_none_of_not_mem _ cursor hcursor]

/-- C12 at the unmapped values `-1` (`ImGuiMouseCursor_None`), `9` and `-7`:
each gives `ArrowCursor`; the mapped value `ImGuiMouseCursor_Hand` gives
`PointingHandCursor`. -/
theorem ImGuiCursorToCursorShape_default_witness :
    ImGuiCursorToCursorShape ImGuiMouseCursor_None = CursorShape.ArrowCursor
    ∧ ImGuiCursorToCursorShape 9 = CursorShape.ArrowCursor
    ∧ ImGuiCursorToCursorShape (-7) = CursorShape.ArrowCursor
    ∧ ImGuiCursorToCursorShape ImGuiMouseCursor_Hand = CursorShape.PointingHandCursor :=
  ⟨ImGuiCursorToCursorShape_default.2.1 ImGuiMouseCursor_None (by decide),
   ImGuiCursorToCursorShape_default.2.1 9 (by decide),
   ImGuiCursorToCursorShape_default.2.1 (-7) (by decide),
   by decide⟩

/-! ## Routing and deferral -/

/-- For a watched object that has a queue, what `eventFilter` leaves of the
backend: the clock, the flags and every field of the UI library but its
traces are as before, and the trace of input mutator calls has grown by
`synchronousCalls`. -/
theorem eventFilter_effect (b : ImGuiQtBackend) (watched : QObject) (event : QEvent)
    (queue : List Action) (hqueue : b.eventQueue_ watched = some queue) :
    ∃ b' : ImGuiQtBackend,
      eventFilter b watched event = .ok (false, b')
      ∧ b'.time_ = b.time_
      ∧ b'.debugEnabled_ = b.debugEnabled_
      ∧ b'.wantUpdateMonitors_ = b.wantUpdateMonitors_
      ∧ b'.io_.calls = b.io_.calls ++ synchronousCalls event
      ∧ { b'.io_ with calls := b.io_.calls, debugLog := b.io_.debugLog } = b.io_ := by
  cases htype : event.type
  case Enter =>
    cases hw : watched.isWidgetType <;>
      simp [eventFilter, htype, HandleEnter, push_back, hqueue, Except.map, hw, synchronousCalls]
  case Leave =>
    cases hw : watched.isWidgetType <;> by_cases hm : b.mouseObject_ = some watched <;>
      simp [eventFilter, htype, HandleLeave, push_back, hqueue, Except.map, hw, hm,
        synchronousCalls]
  case FocusIn =>
    cases hw : watched.isWidgetType <;>
      simp [eventFilter, htype, HandleFocus, push_back, hqueue, Except.map, hw, synchronousCalls]
  case FocusOut =>
    cases hw : watched.isWidgetType <;> by_cases hf : b.focusedObject_ = some watched <;>
      simp [eventFilter, htype, HandleFocus, push_back, hqueue, Except.map, hw, hf,
        synchronousCalls]
  case KeyPress =>
    cases hw : watched.isWidgetType <;> cases hd : b.debugEnabled_ <;>
      simp [eventFilter, htype, HandleKeyPress, UpdateKeyModifiers, push_back, hqueue,
        Except.map, hw, hd, synchronousCalls, ImGuiIO.call, ImGuiIO.DebugLog]
  case KeyRelease =>
    cases hw : watched.isWidgetType <;> cases hd : b.debugEnabled_ <;>
      simp [eventFilter, htype, HandleKeyPress, UpdateKeyModifiers, push_back, hqueue,
        Except.map, hw, hd, synchronousCalls, ImGuiIO.call, ImGuiIO.DebugLog]
  case MouseButtonPress =>
    cases hw : watched.isWidgetType <;>
      by_cases hb : ButtonToImGuiMouseButton event.button = -1 <;>
      simp [eventFilter, htype, HandleMouseButtonPress, push_back, hqueue, Except.map, hw, hb,
        synchronousCalls]
  case MouseButtonRelease =>
    cases hw : watched.isWidgetType <;>
      by_cases hb : ButtonToImGuiMouseButton event.button = -1 <;>
      simp [eventFilter, htype, HandleMouseButtonPress, push_back, hqueue, Except.map, hw, hb,
        synchronousCalls]
  case MouseMove =>
    cases hw : watched.isWidgetType <;>
      simp [eventFilter, htype, HandleMouseMove, push_back, hqueue, Except.map, hw,
        synchronousCalls]
  case Wheel =>
    cases hw : watched.isWidgetType <;> cases hp : event.pixelDelta.isNull <;>
      cases hn : ((QPointF.ofQPoint event.angleDelta).div 8).isNull <;>
      simp [eventFilter, htype, HandleWheel, push_back, hqueue, Except.map, hw, hp, hn,
        synchronousCalls]
  case Other =>
    simp [eventFilter, htype, synchronousCalls]

/-- For a watched object that has no queue, a call of `eventFilter` that
returns has pushed nothing: the queues, the clock and the UI library are as
before. -/
theorem eventFilter_no_queue (b : ImGuiQtBackend) (watched : QObject) (event : QEvent)
    (r : Bool × ImGuiQtBackend) (hqueue : b.eventQueue_ watched = none)
    (hrun : eventFilter b watched event = .ok r) :
    r.2.eventQueue_ = b.eventQueue_ ∧ r.2.time_ = b.time_ ∧ r.2.io_ = b.io_ := by
  cases htype : event.type
  case Enter =>
    simp [eventFilter, htype, HandleEnter, push_back, hqueue, Except.map] at hrun
  case Leave =>
    by_cases hm : b.mouseObject_ = some watched <;>
      simp [eventFilter, htype, HandleLeave, push_back, hqueue, Except.map, hm] at hrun
  case FocusIn =>
    simp [eventFilter, htype, HandleFocus, push_back, hqueue, Except.map] at hrun
  case FocusOut =>
    by_cases hf : b.focusedObject_ = some watched
    · simp [eventFilter, htype, HandleFocus, push_back, hqueue, Except.map, hf] at hrun
    · cases hw : watched.isWidgetType <;>
        simp [eventFilter, htype, HandleFocus, Except.map, hf, hw] at hrun <;>
        simp [← hrun]
  case KeyPress =>
    cases hd : b.debugEnabled_ <;>
      simp [eventFilter, htype, HandleKeyPress, UpdateKeyModifiers, push_back, hqueue,
        Except.map, hd] at hrun
  case KeyRelease =>
    cases hd : b.debugEnabled_ <;>
      simp [eventFilter, htype, HandleKeyPress, UpdateKeyModifiers, push_back, hqueue,
        Except.map, hd] at hrun
  case MouseButtonPress =>
    by_cases hb : ButtonToImGuiMouseButton event.button = -1
    · cases hw : watched.isWidgetType <;>
        simp [eventFilter, htype, HandleMouseButtonPress, Except.map, hb, hw] at hrun <;>
        simp [← hrun]
    · simp [eventFilter, htype, HandleMouseButtonPress, push_back, hqueue, Except.map,
        hb] at hrun
  case MouseButtonRelease =>
    by_cases hb : ButtonToImGuiMouseButton event.button = -1
    · cases hw : watched.isWidgetType <;>
        simp [eventFilter, htype, HandleMouseButtonPress, Except.map, hb, hw] at hrun <;>
        simp [← hrun]
    · simp [eventFilter, htype, HandleMouseButtonPress, push_back, hqueue, Except.map,
        hb] at hrun
  case MouseMove =>
    simp [eventFilter, htype, HandleMouseMove, push_back, hqueue, Except.map] at hrun
  case Wheel =>
    cases hp : event.pixelDelta.isNull <;>
      cases hn : ((QPointF.ofQPoint event.angleDelta).div 8).isNull <;>
      cases hw : watched.isWidgetType <;>
      simp [eventFilter, htype, HandleWheel, push_back, hqueue, Except.map, hp, hn,
        hw] at hrun <;>
      simp [← hrun]
  case Other =>
    simp [eventFilter, htype] at hrun
    simp [← hrun]

/-- One event pushes at most two actions. -/
theorem enqueuedActions_length (b : ImGuiQtBackend) (event : QEvent) (watched : QObject) :
    (enqueuedActions b event watched).length ≤ 2 := by
  unfold enqueuedActions
  cases event.type <;> simp only [] <;> (try split_ifs) <;> simp

/-- C11: for every backend state (whatever its focus, keyboard and pointer
owners), every event and every watched object `A`: if `A` has a queue,
`eventFilter` returns, the queue of `A` is its previous contents followed by
the at most two actions pushed for the event, and the queue of every other
object is as before; and every call of `eventFilter` that returns, also for
an `A` without queue, leaves the queue of every other object as before. -/
theorem eventFilter_routes_to_watched (b : ImGuiQtBackend) (A : QObject) (event : QEvent) :
    (∀ queue : List Action, b.eventQueue_ A = some queue →
      ∃ b' : ImGuiQtBackend,
        eventFilter b A event = .ok (false, b')
        ∧ b'.eventQueue_ A = some (queue ++ enqueuedActions b event A)
        ∧ (enqueuedActions b event A).length ≤ 2
        ∧ ∀ B : QObject, B ≠ A → b'.eventQueue_ B = b.eventQueue_ B)
    ∧ (∀ r : Bool × ImGuiQtBackend, eventFilter b A event = .ok r →
        ∀ B : QObject, B ≠ A → r.2.eventQueue_ B = b.eventQueue_ B) := by
  have hsome : ∀ queue : List Action, b.eventQueue_ A = some queue →
      ∃ b' : ImGuiQtBackend,
        eventFilter b A event = .ok (false, b')
        ∧ b'.eventQueue_ A = some (queue ++ enqueuedActions b event A)
        ∧ (enqueuedActions b event A).length ≤ 2
        ∧ ∀ B : QObject, B ≠ A → b'.eventQueue_ B = b.eventQueue_ B := by
    intro queue hqueue
    obtain ⟨b', hrun, hq⟩ := eventFilter_of_queue b A event queue hqueue
    refine ⟨b', hrun, by simp [hq], enqueuedActions_length b event A, ?_⟩
    intro B hB
    simp [hq, Function.update_noteq hB]
  refine ⟨hsome, ?_⟩
  intro r hrun B hB
  cases hqueue : b.eventQueue_ A with
  | none => rw [(eventFilter_no_queue b A event r hqueue hrun).1]
  | some queue =>
    obtain ⟨b', hrun', -, -, hother⟩ := hsome queue hqueue
    rw [hrun'] at hrun
    cases hrun
    exact hother B hB

/-- C11 at a key press delivered to `windowB` while `widgetA` owns focus and
pointer: the two actions go to the queue of `windowB`, and the queue of
`widgetA` stays empty. -/
theorem eventFilter_routes_to_watched_witness :
    (∃ b' : ImGuiQtBackend,
      eventFilter sampleOwned windowB sampleKeyPress = .ok (false, b')
      ∧ b'.eventQueue_ windowB = some ([] ++ enqueuedActions sampleOwned sampleKeyPress windowB)
      ∧ (enqueuedActions sampleOwned sampleKeyPress windowB).length ≤ 2
      ∧ ∀ B : QObject, B ≠ windowB → b'.eventQueue_ B = sampleOwned.eventQueue_ B)
    ∧ enqueuedActions sampleOwned sampleKeyPress windowB
        = [Action.UpdateKeyModifiers (Qt.ControlModifier ||| Qt.ShiftModifier),
           Action.HandleKeyPress ImGuiKey_A .KeyPress "A"]
    ∧ sampleOwned.eventQueue_ widgetA = some []
    ∧ sampleOwned.focusedObject_ = some widgetA
    ∧ sampleOwned.mouseObject_ = some widgetA :=
  ⟨(eventFilter_routes_to_watched sampleOwned windowB sampleKeyPress).1 [] (by rfl),
   by rfl, by rfl, by rfl, by rfl⟩

/-- C14, as the code has it: for every event delivered through `eventFilter`
to a watched object that has a queue, the call returns; the queue of every
other object, the clock, the flags and every field of the UI library but its
traces are as before; the queue of the watched object has the pushed actions
at its back; and the only input mutator called before the queue is drained is
`SetKeyEventNativeData`, which is called once for a key press or release and
not at all for any other event. The calls of the pushed actions are made by
the next `NewFrame` for the watched object. -/
theorem eventFilter_defers_all_but_native_key_data (b : ImGuiQtBackend) (watched : QObject)
    (event : QEvent) (queue : List Action) (registeredObjects_ : List QObject)
    (widgetSize : QSize) (currentTime : Int)
    (hqueue : b.eventQueue_ watched = some queue) :
    ∃ b' : ImGuiQtBackend,
      eventFilter b watched event = .ok (false, b')
      ∧ (∀ B : QObject, B ≠ watched → b'.eventQueue_ B = b.eventQueue_ B)
      ∧ b'.eventQueue_ watched = some (queue ++ enqueuedActions b event watched)
      ∧ b'.time_ = b.time_
      ∧ b'.debugEnabled_ = b.debugEnabled_
      ∧ b'.wantUpdateMonitors_ = b.wantUpdateMonitors_
      ∧ { b'.io_ with calls := b.io_.calls, debugLog := b.io_.debugLog } = b.io_
      ∧ b'.io_.calls = b.io_.calls ++ synchronousCalls event
      ∧ (event.type ≠ QEventType.KeyPress → event.type ≠ QEventType.KeyRelease →
          synchronousCalls event = [])
      ∧ (event.type = QEventType.KeyPress ∨ event.type = QEventType.KeyRelease →
          synchronousCalls event =
            [IoCall.SetKeyEventNativeData (KeyToImGuiKey event.key event.modifiers).1
              event.nativeVirtualKey event.nativeScanCode])
      ∧ ∃ b2 : ImGuiQtBackend,
          NewFrame b' registeredObjects_ watched widgetSize currentTime = .ok b2
          ∧ b2.io_.calls = b'.io_.calls
              ++ (queue ++ enqueuedActions b event watched).flatMap Action.calls := by
  obtain ⟨b', hrun, hq⟩ := eventFilter_of_queue b watched event queue hqueue
  obtain ⟨b1, hrun1, htime, hdebug, hwant, hcalls, hio⟩ :=
    eventFilter_effect b watched event queue hqueue
  have hb : b1 = b' := by
    rw [hrun] at hrun1
    cases hrun1
    rfl
  subst hb
  have hqueue1 : b1.eventQueue_ watched = some (queue ++ enqueuedActions b event watched) := by
    simp [hq]
  obtain ⟨b2, hframe, -, hdrain⟩ :=
    NewFrame_of_queue b1 registeredObjects_ watched widgetSize currentTime _ hqueue1
  refine ⟨b1, hrun, ?_, hqueue1, htime, hdebug, hwant, hio, hcalls, ?_, ?_, b2, hframe, hdrain⟩
  · intro B hB
    simp [hq, Function.update_noteq hB]
  · intro h1 h2
    unfold synchronousCalls
    cases htype : event.type <;> simp_all
  · intro h
    rcases h with h | h <;> simp [synchronousCalls, h]

/-- C14, amended, at a mouse move delivered to `widgetA`: no input mutator
is called before `NewFrame`, which then calls `AddMousePosEvent 1 2`. -/
theorem eventFilter_defers_all_but_native_key_data_witness :
    (∃ b' : ImGuiQtBackend,
      eventFilter sampleBackend widgetA sampleMove1 = .ok (false, b')
      ∧ (∀ B : QObject, B ≠ widgetA → b'.eventQueue_ B = sampleBackend.eventQueue_ B)
      ∧ b'.eventQueue_ widgetA = some ([] ++ enqueuedActions sampleBackend sampleMove1 widgetA)
      ∧ b'.time_ = sampleBackend.time_
      ∧ b'.debugEnabled_ = sampleBackend.debugEnabled_
      ∧ b'.wantUpdateMonitors_ = sampleBackend.wantUpdateMonitors_
      ∧ { b'.io_ with calls := sampleBackend.io_.calls, debugLog := sampleBackend.io_.debugLog }
          = sampleBackend.io_
      ∧ b'.io_.calls = sampleBackend.io_.calls ++ synchronousCalls sampleMove1
      ∧ (sampleMove1.type ≠ QEventType.KeyPress → sampleMove1.type ≠ QEventType.KeyRelease →
          synchronousCalls sampleMove1 = [])
      ∧ (sampleMove1.type = QEventType.KeyPress ∨ sampleMove1.type = QEventType.KeyRelease →
          synchronousCalls sampleMove1 =
            [IoCall.SetKeyEventNativeData (KeyToImGuiKey sampleMove1.key sampleMove1.modifiers).1
              sampleMove1.nativeVirtualKey sampleMove1.nativeScanCode])
      ∧ ∃ b2 : ImGuiQtBackend,
          NewFrame b' [widgetA, windowB] widgetA ⟨640, 480⟩ 1000 = .ok b2
          ∧ b2.io_.calls = b'.io_.calls
              ++ ([] ++ enqueuedActions sampleBackend sampleMove1 widgetA).flatMap Action.calls)
    ∧ synchronousCalls sampleMove1 = []
    ∧ ([] ++ enqueuedActions sampleBackend sampleMove1 widgetA).flatMap Action.calls
        = [IoCall.AddMousePosEvent 1 2] :=
  ⟨eventFilter_defers_all_but_native_key_data sampleBackend widgetA sampleMove1 []
    [widgetA, windowB] ⟨640, 480⟩ 1000 (by rfl), by rfl, by rfl⟩

/-- C14 as stated fails at a key press: delivering `sampleKeyPress` to
`widgetA` through `eventFilter` calls `SetKeyEventNativeData` on the UI library
at once, before any `NewFrame`; it also requests a repaint of the widget. -/
theorem eventFilter_key_press_sets_native_key_data :
    ∃ b' : ImGuiQtBackend,
      eventFilter sampleBackend widgetA sampleKeyPress = .ok (false, b')
      ∧ sampleBackend.io_.calls = []
      ∧ b'.io_.calls = [IoCall.SetKeyEventNativeData ImGuiKey_A 0 0]
      ∧ b'.qt = sampleBackend.qt ++ [QtCall.update widgetA]
      ∧ b'.io_.calls ≠ sampleBackend.io_.calls := by
  refine ⟨_, rfl, rfl, rfl, rfl, ?_⟩
  intro h
  have h2 : [IoCall.SetKeyEventNativeData ImGuiKey_A 0 0] = ([] : List IoCall) := h
  simp at h2

/-! ## Frame timing -/

/-- Invoking an action changes the UI library only in its trace of calls. -/
theorem Action.invoke_eq (io : ImGuiIO) (action : Action) :
    action.invoke io = { io with calls := io.calls ++ action.calls } := by
  unfold Action.invoke
  generalize action.calls = cs
  induction cs generalizing io with
  | nil => simp
  | cons c rest ih => simp [List.foldl_cons, ih, ImGuiIO.call]

/-- The loop of `NewFrame` changes the UI library only in its trace of
calls. -/
theorem processEvents_eq (queue : List Action) (io : ImGuiIO) :
    processEvents queue io = { io with calls := io.calls ++ queue.flatMap Action.calls } := by
  induction queue generalizing io with
  | nil => simp [processEvents]
  | cons front rest ih => simp [processEvents, ih, Action.invoke_eq, List.append_assoc]

/-- `UpdateMouseCursor` leaves the stored timestamp as it was. -/
theorem UpdateMouseCursor_time (b : ImGuiQtBackend) (registeredObjects_ : List QObject) :
    (UpdateMouseCursor b registeredObjects_).time_ = b.time_ := by
  unfold UpdateMouseCursor
  split <;> rfl

/-- For an object that has a queue, `NewFrame` stores the clock value in
`time_` and writes as `DeltaTime` the fallback `1 / 60` when no positive
timestamp was stored, and else the ticks since the stored timestamp, in
seconds. -/
theorem NewFrame_DeltaTime (b : ImGuiQtBackend) (registeredObjects_ : List QObject)
    (object : QObject) (widgetSize : QSize) (currentTime : Int) (queue : List Action)
    (hqueue : b.eventQueue_ object = some queue) :
    ∃ b' : ImGuiQtBackend,
      NewFrame b registeredObjects_ object widgetSize currentTime = .ok b'
      ∧ b'.time_ = currentTime
      ∧ b'.io_.DeltaTime =
          if b.time_ > 0 then ((currentTime - b.time_ : Int) : ℚ) / steady_clock_ticks_per_second
          else 1 / 60 := by
  unfold NewFrame
  simp only [UpdateMonitors, UpdateMouseData, ite_self, hqueue]
  refine ⟨_, rfl, ?_, ?_⟩
  · rw [UpdateMouseCursor_time]
    split <;> rfl
  · rw [(UpdateMouseCursor_frame _ _).2]
    simp only [processEvents_eq]
    split <;> rfl

/-- `ImGui_ImplQt_Init` on a context without backend returns backend data that
stores no timestamp. -/
theorem ImGui_ImplQt_Init_time (io : ImGuiIO) (clipboardText : String)
    (bd : Option ImGui_ImplQt_Data) (hrun : ImGui_ImplQt_Init io none clipboardText = .ok bd) :
    ∃ d : ImGui_ImplQt_Data, bd = some d ∧ d.backend_.time_ = 0 := by
  simp only [ImGui_ImplQt_Init, Except.ok.injEq] at hrun
  subst hrun
  refine ⟨_, rfl, ?_⟩
  simp only [ImGuiQtBackend.Init, InitPlatformInterface, UpdateMonitors, ite_self]
  rfl

/-- A call of `eventFilter` that returns leaves the stored timestamp as it
was. -/
theorem eventFilter_time (b : ImGuiQtBackend) (watched : QObject) (event : QEvent)
    (r : Bool × ImGuiQtBackend) (hrun : eventFilter b watched event = .ok r) :
    r.2.time_ = b.time_ := by
  cases hqueue : b.eventQueue_ watched with
  | none => exact (eventFilter_no_queue b watched event r hqueue hrun).2.1
  | some queue =>
    obtain ⟨b', hrun', htime, -⟩ := eventFilter_effect b watched event queue hqueue
    rw [hrun'] at hrun
    cases hrun
    exact htime

/-- A step that is not a `NewFrame` call and returns, taken on initialised
backend data, leaves initialised backend data with the same stored
timestamp. -/
theorem Call_run_time (d : ImGui_ImplQt_Data) (bd' : Option ImGui_ImplQt_Data) (c : Call)
    (hc : c.isNewFrame = false) (hrun : c.run (some d) = .ok bd') :
    ∃ d' : ImGui_ImplQt_Data, bd' = some d' ∧ d'.backend_.time_ = d.backend_.time_ := by
  cases c with
  | RegisterWidget widget =>
    simp only [Call.run, ImGui_ImplQt_RegisterWidget, ImGui_ImplQt_RegisterObject,
      Option.map_some', Except.ok.injEq] at hrun
    subst hrun
    refine ⟨_, rfl, ?_⟩
    simp only [RegisterObject]
    split <;> rfl
  | RegisterWindow window =>
    simp only [Call.run, ImGui_ImplQt_RegisterWindow, ImGui_ImplQt_RegisterObject,
      Except.ok.injEq] at hrun
    subst hrun
    refine ⟨_, rfl, ?_⟩
    simp only [RegisterObject]
    split <;> rfl
  | UnregisterWidget widget =>
    simp only [Call.run, ImGui_ImplQt_UnregisterWidget, ImGui_ImplQt_UnregisterObject,
      Except.ok.injEq] at hrun
    subst hrun
    exact ⟨_, rfl, rfl⟩
  | UnregisterWindow window =>
    simp only [Call.run, ImGui_ImplQt_UnregisterWindow, ImGui_ImplQt_UnregisterObject,
      Except.ok.injEq] at hrun
    subst hrun
    exact ⟨_, rfl, rfl⟩
  | deliver watched event =>
    simp only [Call.run, deliverEvent] at hrun
    cases hf : eventFilter d.backend_ watched event with
    | error e => simp [hf] at hrun
    | ok r =>
      simp only [hf, Except.ok.injEq] at hrun
      subst hrun
      exact ⟨_, rfl, eventFilter_time d.backend_ watched event r hf⟩
  | NewFrame object widgetSize currentTime => simp [Call.isNewFrame] at hc

/-- A run of steps without `NewFrame` call that returns, started on
initialised backend data, leaves initialised backend data with the same stored
timestamp. -/
theorem runCalls_time (calls : List Call) (d : ImGui_ImplQt_Data)
    (bd' : Option ImGui_ImplQt_Data) (hcalls : ∀ c ∈ calls, c.isNewFrame = false)
    (hrun : runCalls (some d) calls = .ok bd') :
    ∃ d' : ImGui_ImplQt_Data, bd' = some d' ∧ d'.backend_.time_ = d.backend_.time_ := by
  induction calls generalizing d with
  | nil =>
    simp only [runCalls, Except.ok.injEq] at hrun
    exact ⟨d, hrun.symm, rfl⟩
  | cons c rest ih =>
    simp only [runCalls] at hrun
    cases hc : c.run (some d) with
    | error e => simp [hc] at hrun
    | ok bd1 =>
      simp only [hc] at hrun
      obtain ⟨d1, hd1, ht1⟩ := Call_run_time d bd1 c (hcalls c (List.mem_cons_self _ _)) hc
      subst hd1
      obtain ⟨d2, hd2, ht2⟩ := ih d1 (fun c' hc' => hcalls c' (List.mem_cons_of_mem _ hc')) hrun
      exact ⟨d2, hd2, ht2.trans ht1⟩

/-- C13: after `ImGui_ImplQt_Init` and any steps none of which is a `NewFrame`
call, no timestamp is stored, and the first `NewFrame` call, for an object
that has a queue, returns and writes the delta time `1 / 60` to the UI
library, whatever value `currentTime` the clock returns. -/
theorem first_NewFrame_DeltaTime (io : ImGuiIO) (clipboardText : String) (calls : List Call)
    (bd : ImGui_ImplQt_Data) (object : QObject) (queue : List Action) (widgetSize : QSize)
    (currentTime : Int) (hcalls : ∀ c ∈ calls, c.isNewFrame = false)
    (hrun : runFromInit io clipboardText calls = .ok (some bd))
    (hqueue : bd.backend_.eventQueue_ object = some queue) :
    bd.backend_.time_ = 0
    ∧ ∃ bd' : ImGui_ImplQt_Data,
        ImGui_ImplQt_NewFrame (some bd) object widgetSize currentTime = .ok (some bd')
        ∧ bd'.backend_.io_.DeltaTime = 1 / 60
        ∧ bd'.backend_.time_ = currentTime := by
  have htime : bd.backend_.time_ = 0 := by
    simp only [runFromInit] at hrun
    cases hinit : ImGui_ImplQt_Init io none clipboardText with
    | error e => simp [hinit] at hrun
    | ok bd0 =>
      simp only [hinit] at hrun
      obtain ⟨d0, hd0, ht0⟩ := ImGui_ImplQt_Init_time io clipboardText bd0 hinit
      subst hd0
      obtain ⟨d1, hd1, ht1⟩ := runCalls_time calls d0 (some bd) hcalls hrun
      cases hd1
      rw [ht1, ht0]
  refine ⟨htime, ?_⟩
  obtain ⟨b', hframe, hnow, hdelta⟩ := NewFrame_DeltaTime bd.backend_ bd.registeredObjects_
    object widgetSize currentTime queue hqueue
  refine ⟨{ bd with backend_ := b' }, ?_, ?_, hnow⟩
  · simp [ImGui_ImplQt_NewFrame, hframe]
  · simpa [htime] using hdelta

/-- C13 at the first `NewFrame` for `widgetA` after `ImGui_ImplQt_Init` and
its registration, with the clock at 5 ticks and at `10 ^ 12` ticks: the delta
time is `1 / 60` both times. -/
theorem first_NewFrame_DeltaTime_witness :
    (sampleRegistered.backend_.time_ = 0
      ∧ ∃ bd' : ImGui_ImplQt_Data,
          ImGui_ImplQt_NewFrame (some sampleRegistered) widgetA ⟨640, 480⟩ 5 = .ok (some bd')
          ∧ bd'.backend_.io_.DeltaTime = 1 / 60
          ∧ bd'.backend_.time_ = 5)
    ∧ (sampleRegistered.backend_.time_ = 0
      ∧ ∃ bd' : ImGui_ImplQt_Data,
          ImGui_ImplQt_NewFrame (some sampleRegistered) widgetA ⟨640, 480⟩ (10 ^ 12)
            = .ok (some bd')
          ∧ bd'.backend_.io_.DeltaTime = 1 / 60
          ∧ bd'.backend_.time_ = 10 ^ 12) :=
  ⟨first_NewFrame_DeltaTime sampleIo "" [.RegisterWidget widgetA] sampleRegistered widgetA []
      ⟨640, 480⟩ 5 (by decide) (by rfl) (by rfl),
   first_NewFrame_DeltaTime sampleIo "" [.RegisterWidget widgetA] sampleRegistered widgetA []
      ⟨640, 480⟩ (10 ^ 12) (by decide) (by rfl) (by rfl)⟩

end ImGuiQt
